import Mathlib

/-!
MT4: Vector3 / Matrix4x4 math library.

A shallow embedding of `Function.cpp` and `Struct.h`.  Every function is written once, over a
scalar type `F` that supplies the operations the source applies to `float` (`+`, `-`, `*`, `/`,
unary minus, the constants 0, 1 and 2, squaring, `<` and `==`); the library calls `sqrtf`,
`cosf`, `sinf`, `tanf` are passed in as functions on `F`.  The scalar type is then read in two
ways:

* as an exact linearly ordered field (`ℝ` with `Real.sqrt`, `Real.cos`, `Real.sin`, or `ℚ`):
  the reading "float arithmetic as exact real arithmetic";
* as IEEE-754 binary32 (`F32` below), where every operation rounds to nearest, ties to even.

The `assert` of `Transform` is modelled by `Option`: `none` is the assertion failure.
-/

namespace MT4

/-- Struct.h `Vector3`: three scalar components. -/
@[ext]
structure Vector3 (F : Type) where
  x : F
  y : F
  z : F
deriving DecidableEq

/-- Struct.h `Matrix4x4`: `float m[4][4]`, addressed `m[row][column]`. -/
@[ext]
structure Matrix4x4 (F : Type) where
  m : Fin 4 → Fin 4 → F

section Source

variable {F : Type} [HAdd F F F] [HSub F F F] [HMul F F F] [HDiv F F F] [Neg F] [Zero F] [One F]
  [OfNat F 2] [HPow F ℕ F] [LT F] [DecidableEq F] [∀ a b : F, Decidable (a < b)]

namespace Vector3

/-- Function.cpp `Add(const Vector3&, const Vector3&)`. -/
def Add (v1 v2 : Vector3 F) : Vector3 F :=
  ⟨v1.x + v2.x, v1.y + v2.y, v1.z + v2.z⟩

/-- Function.cpp `Subtract(const Vector3&, const Vector3&)`. -/
def Subtract (v1 v2 : Vector3 F) : Vector3 F :=
  ⟨v1.x - v2.x, v1.y - v2.y, v1.z - v2.z⟩

/-- Function.cpp `Multiply(float scalar, const Vector3&)`. -/
def Multiply (scalar : F) (v : Vector3 F) : Vector3 F :=
  ⟨scalar * v.x, scalar * v.y, scalar * v.z⟩

end Vector3

/-- Function.cpp `Dot`. -/
def Dot (v1 v2 : Vector3 F) : F :=
  v1.x * v2.x + v1.y * v2.y + v1.z * v2.z

/-- Function.cpp `Length`: `sqrtf(Dot(v, v))`. -/
def Length (sqrtf : F → F) (v : Vector3 F) : F :=
  sqrtf (Dot v v)

/-- Function.cpp `Normalize`: the zero vector when the length is zero, else `v` scaled by
`1.0f / length`. -/
def Normalize (sqrtf : F → F) (v : Vector3 F) : Vector3 F :=
  let length := Length sqrtf v
  if length = 0 then ⟨0, 0, 0⟩
  else Vector3.Multiply (1 / length) v

/-- Function.cpp `Cross`. -/
def Cross (v1 v2 : Vector3 F) : Vector3 F :=
  ⟨v1.y * v2.z - v1.z * v2.y, v1.z * v2.x - v1.x * v2.z, v1.x * v2.y - v1.y * v2.x⟩

/-- Function.cpp `Transform`: the row vector `(x, y, z, 1)` times the matrix, divided by the
resulting `w`.  `assert(w != 0.0f)` failing is `none`. -/
def Transform (matrix : Matrix4x4 F) (vector : Vector3 F) : Option (Vector3 F) :=
  let x := matrix.m 0 0 * vector.x + matrix.m 1 0 * vector.y + matrix.m 2 0 * vector.z
    + matrix.m 3 0
  let y := matrix.m 0 1 * vector.x + matrix.m 1 1 * vector.y + matrix.m 2 1 * vector.z
    + matrix.m 3 1
  let z := matrix.m 0 2 * vector.x + matrix.m 1 2 * vector.y + matrix.m 2 2 * vector.z
    + matrix.m 3 2
  let w := matrix.m 0 3 * vector.x + matrix.m 1 3 * vector.y + matrix.m 2 3 * vector.z
    + matrix.m 3 3
  if w ≠ 0 then some ⟨x / w, y / w, z / w⟩ else none

/-- Function.cpp `Project`: `result` starts as the zero vector and is overwritten only when
`length != 0`. -/
def Project (sqrtf : F → F) (v1 v2 : Vector3 F) : Vector3 F :=
  let dot := v1.x * v2.x + v1.y * v2.y + v1.z * v2.z
  let length := Length sqrtf v2
  if length ≠ 0 then
    ⟨(dot / length ^ 2) * v2.x, (dot / length ^ 2) * v2.y, (dot / length ^ 2) * v2.z⟩
  else ⟨0, 0, 0⟩

/-- Function.cpp `ClosestPoint`. -/
def ClosestPoint (lineStart lineEnd point : Vector3 F) : Vector3 F :=
  let lineDir : Vector3 F :=
    ⟨lineEnd.x - lineStart.x, lineEnd.y - lineStart.y, lineEnd.z - lineStart.z⟩
  let pointToLineStart : Vector3 F :=
    ⟨point.x - lineStart.x, point.y - lineStart.y, point.z - lineStart.z⟩
  let t := (lineDir.x * pointToLineStart.x + lineDir.y * pointToLineStart.y
      + lineDir.z * pointToLineStart.z) /
    (lineDir.x * lineDir.x + lineDir.y * lineDir.y + lineDir.z * lineDir.z)
  if t < 0 then ⟨lineStart.x, lineStart.y, lineStart.z⟩
  else if t > 1 then ⟨lineEnd.x, lineEnd.y, lineEnd.z⟩
  else ⟨lineStart.x + t * lineDir.x, lineStart.y + t * lineDir.y, lineStart.z + t * lineDir.z⟩

/-- Function.cpp `Perpendicular`. -/
def Perpendicular (vector : Vector3 F) : Vector3 F :=
  if vector.x ≠ 0 ∨ vector.y ≠ 0 then ⟨-vector.y, vector.x, 0⟩
  else ⟨0, -vector.z, vector.y⟩

/-- Function.cpp `Lerp`. -/
def Lerp (v1 v2 : Vector3 F) (t : F) : Vector3 F :=
  Vector3.Add (Vector3.Multiply t v1) (Vector3.Multiply (1 - t) v2)

/-- Function.cpp `Bezier`. -/
def Bezier (p0 p1 p2 : Vector3 F) (t : F) : Vector3 F :=
  let p0p1 := Lerp p0 p1 t
  let p1p2 := Lerp p1 p2 t
  Lerp p0p1 p1p2 t

/-- Function.cpp `Reflect`: `input - 2.0f * (Dot(input, normal) * normal)`, the operators
being `Subtract` and the scalar `Multiply`. -/
def Reflect (input normal : Vector3 F) : Vector3 F :=
  Vector3.Subtract input (Vector3.Multiply 2 (Vector3.Multiply (Dot input normal) normal))

/-- The local `det` of Function.cpp `Inverse`: the 24-term expansion. -/
def Inverse.det (m : Matrix4x4 F) : F :=
  m.m 0 0 * m.m 1 1 * m.m 2 2 * m.m 3 3
  + m.m 0 0 * m.m 1 2 * m.m 2 3 * m.m 3 1
  + m.m 0 0 * m.m 1 3 * m.m 2 1 * m.m 3 2
  - m.m 0 0 * m.m 1 3 * m.m 2 2 * m.m 3 1
  - m.m 0 0 * m.m 1 2 * m.m 2 1 * m.m 3 3
  - m.m 0 0 * m.m 1 1 * m.m 2 3 * m.m 3 2
  - m.m 0 1 * m.m 1 0 * m.m 2 2 * m.m 3 3
  - m.m 0 2 * m.m 1 0 * m.m 2 3 * m.m 3 1
  - m.m 0 3 * m.m 1 0 * m.m 2 1 * m.m 3 2
  + m.m 0 3 * m.m 1 0 * m.m 2 2 * m.m 3 1
  + m.m 0 2 * m.m 1 0 * m.m 2 1 * m.m 3 3
  + m.m 0 1 * m.m 1 0 * m.m 2 3 * m.m 3 2
  + m.m 0 1 * m.m 1 2 * m.m 2 0 * m.m 3 3
  + m.m 0 2 * m.m 1 3 * m.m 2 0 * m.m 3 1
  + m.m 0 3 * m.m 1 1 * m.m 2 0 * m.m 3 2
  - m.m 0 3 * m.m 1 2 * m.m 2 0 * m.m 3 1
  - m.m 0 2 * m.m 1 1 * m.m 2 0 * m.m 3 3
  - m.m 0 1 * m.m 1 3 * m.m 2 0 * m.m 3 2
  - m.m 0 1 * m.m 1 2 * m.m 2 3 * m.m 3 0
  - m.m 0 2 * m.m 1 3 * m.m 2 1 * m.m 3 0
  - m.m 0 3 * m.m 1 1 * m.m 2 2 * m.m 3 0
  + m.m 0 3 * m.m 1 2 * m.m 2 1 * m.m 3 0
  + m.m 0 2 * m.m 1 1 * m.m 2 3 * m.m 3 0
  + m.m 0 1 * m.m 1 3 * m.m 2 2 * m.m 3 0

/-- The local `num` of Function.cpp `Inverse`: the sixteen numerators. -/
def Inverse.num (m : Matrix4x4 F) : Matrix4x4 F :=
  ⟨![
    ![
      (m.m 1 1 * m.m 2 2 * m.m 3 3
        + m.m 1 2 * m.m 2 3 * m.m 3 1
        + m.m 1 3 * m.m 2 1 * m.m 3 2
        - m.m 1 3 * m.m 2 2 * m.m 3 1
        - m.m 1 2 * m.m 2 1 * m.m 3 3
        - m.m 1 1 * m.m 2 3 * m.m 3 2),
      (- m.m 0 1 * m.m 2 2 * m.m 3 3
        - m.m 0 2 * m.m 2 3 * m.m 3 1
        - m.m 0 3 * m.m 2 1 * m.m 3 2
        + m.m 0 3 * m.m 2 2 * m.m 3 1
        + m.m 0 2 * m.m 2 1 * m.m 3 3
        + m.m 0 1 * m.m 2 3 * m.m 3 2),
      (m.m 0 1 * m.m 1 2 * m.m 3 3
        + m.m 0 2 * m.m 1 3 * m.m 3 1
        + m.m 0 3 * m.m 1 1 * m.m 3 2
        - m.m 0 3 * m.m 1 2 * m.m 3 1
        - m.m 0 2 * m.m 1 1 * m.m 3 3
        - m.m 0 1 * m.m 1 3 * m.m 3 2),
      (- m.m 0 1 * m.m 1 2 * m.m 2 3
        - m.m 0 2 * m.m 1 3 * m.m 2 1
        - m.m 0 3 * m.m 1 1 * m.m 2 2
        + m.m 0 3 * m.m 1 2 * m.m 2 1
        + m.m 0 2 * m.m 1 1 * m.m 2 3
        + m.m 0 1 * m.m 1 3 * m.m 2 2)],
    ![
      (- m.m 1 0 * m.m 2 2 * m.m 3 3
        - m.m 1 2 * m.m 2 3 * m.m 3 0
        - m.m 1 3 * m.m 2 0 * m.m 3 2
        + m.m 1 3 * m.m 2 2 * m.m 3 0
        + m.m 1 2 * m.m 2 0 * m.m 3 3
        + m.m 1 0 * m.m 2 3 * m.m 3 2),
      (m.m 0 0 * m.m 2 2 * m.m 3 3
        + m.m 0 2 * m.m 2 3 * m.m 3 0
        + m.m 0 3 * m.m 2 0 * m.m 3 2
        - m.m 0 3 * m.m 2 2 * m.m 3 0
        - m.m 0 2 * m.m 2 0 * m.m 3 3
        - m.m 0 0 * m.m 2 3 * m.m 3 2),
      (- m.m 0 0 * m.m 1 2 * m.m 3 3
        - m.m 0 2 * m.m 1 3 * m.m 3 0
        - m.m 0 3 * m.m 1 0 * m.m 3 2
        + m.m 0 3 * m.m 1 2 * m.m 3 0
        + m.m 0 2 * m.m 1 0 * m.m 3 3
        + m.m 0 0 * m.m 1 3 * m.m 3 2),
      (m.m 0 0 * m.m 1 2 * m.m 2 3
        + m.m 0 2 * m.m 1 3 * m.m 2 0
        + m.m 0 3 * m.m 1 0 * m.m 2 2
        - m.m 0 3 * m.m 1 2 * m.m 2 0
        - m.m 0 2 * m.m 1 0 * m.m 2 3
        - m.m 0 0 * m.m 1 3 * m.m 2 2)],
    ![
      (m.m 1 0 * m.m 2 1 * m.m 3 3
        + m.m 1 1 * m.m 2 3 * m.m 3 0
        + m.m 1 3 * m.m 2 0 * m.m 3 1
        - m.m 1 3 * m.m 2 1 * m.m 3 0
        - m.m 1 1 * m.m 2 0 * m.m 3 3
        - m.m 1 0 * m.m 2 3 * m.m 3 1),
      (- m.m 0 0 * m.m 2 1 * m.m 3 3
        - m.m 0 1 * m.m 2 3 * m.m 3 0
        - m.m 0 3 * m.m 2 0 * m.m 3 1
        + m.m 0 3 * m.m 2 1 * m.m 3 0
        + m.m 0 1 * m.m 2 0 * m.m 3 3
        + m.m 0 0 * m.m 2 3 * m.m 3 1),
      (m.m 0 0 * m.m 1 1 * m.m 3 3
        + m.m 0 1 * m.m 1 3 * m.m 3 0
        + m.m 0 3 * m.m 1 0 * m.m 3 1
        - m.m 0 3 * m.m 1 1 * m.m 3 0
        - m.m 0 1 * m.m 1 0 * m.m 3 3
        - m.m 0 0 * m.m 1 3 * m.m 3 1),
      (- m.m 0 0 * m.m 1 1 * m.m 2 3
        - m.m 0 1 * m.m 1 3 * m.m 2 0
        - m.m 0 3 * m.m 1 0 * m.m 2 1
        + m.m 0 3 * m.m 1 1 * m.m 2 0
        + m.m 0 1 * m.m 1 0 * m.m 2 3
        + m.m 0 0 * m.m 1 3 * m.m 2 1)],
    ![
      (- m.m 1 0 * m.m 2 1 * m.m 3 2
        - m.m 1 1 * m.m 2 2 * m.m 3 0
        - m.m 1 2 * m.m 2 0 * m.m 3 1
        + m.m 1 2 * m.m 2 1 * m.m 3 0
        + m.m 1 1 * m.m 2 0 * m.m 3 2
        + m.m 1 0 * m.m 2 2 * m.m 3 1),
      (m.m 0 0 * m.m 2 1 * m.m 3 2
        + m.m 0 1 * m.m 2 2 * m.m 3 0
        + m.m 0 2 * m.m 2 0 * m.m 3 1
        - m.m 0 2 * m.m 2 1 * m.m 3 0
        - m.m 0 1 * m.m 2 0 * m.m 3 2
        - m.m 0 0 * m.m 2 2 * m.m 3 1),
      (- m.m 0 0 * m.m 1 1 * m.m 3 2
        - m.m 0 1 * m.m 1 2 * m.m 3 0
        - m.m 0 2 * m.m 1 0 * m.m 3 1
        + m.m 0 2 * m.m 1 1 * m.m 3 0
        + m.m 0 1 * m.m 1 0 * m.m 3 2
        + m.m 0 0 * m.m 1 2 * m.m 3 1),
      (m.m 0 0 * m.m 1 1 * m.m 2 2
        + m.m 0 1 * m.m 1 2 * m.m 2 0
        + m.m 0 2 * m.m 1 0 * m.m 2 1
        - m.m 0 2 * m.m 1 1 * m.m 2 0
        - m.m 0 1 * m.m 1 0 * m.m 2 2
        - m.m 0 0 * m.m 1 2 * m.m 2 1)]]⟩

/-- Function.cpp `Inverse`: the all-zero matrix when `det == 0`, else every numerator
divided by `det`. -/
def Inverse (m : Matrix4x4 F) : Matrix4x4 F :=
  if Inverse.det m = 0 then ⟨fun _ _ => 0⟩
  else ⟨fun i j => (Inverse.num m).m i j / Inverse.det m⟩

/-- Function.cpp `MakeTranslateMatrix`: entries not assigned stay zero. -/
def MakeTranslateMatrix (translate : Vector3 F) : Matrix4x4 F :=
  ⟨![![1, 0, 0, 0],
     ![0, 1, 0, 0],
     ![0, 0, 1, 0],
     ![translate.x, translate.y, translate.z, 1]]⟩

/-- Function.cpp `MakeScaleMatrix`. -/
def MakeScaleMatrix (scale : Vector3 F) : Matrix4x4 F :=
  ⟨![![scale.x, 0, 0, 0],
     ![0, scale.y, 0, 0],
     ![0, 0, scale.z, 0],
     ![0, 0, 0, 1]]⟩

/-- Function.cpp `MakeRotateXMatrix`. -/
def MakeRotateXMatrix (cosf sinf : F → F) (radian : F) : Matrix4x4 F :=
  ⟨![![1, 0, 0, 0],
     ![0, cosf radian, sinf radian, 0],
     ![0, -sinf radian, cosf radian, 0],
     ![0, 0, 0, 1]]⟩

/-- Function.cpp `MakeRotateYMatrix`. -/
def MakeRotateYMatrix (cosf sinf : F → F) (radian : F) : Matrix4x4 F :=
  ⟨![![cosf radian, 0, -sinf radian, 0],
     ![0, 1, 0, 0],
     ![sinf radian, 0, cosf radian, 0],
     ![0, 0, 0, 1]]⟩

/-- Function.cpp `MakeRotateZMatrix`. -/
def MakeRotateZMatrix (cosf sinf : F → F) (radian : F) : Matrix4x4 F :=
  ⟨![![cosf radian, sinf radian, 0, 0],
     ![-sinf radian, cosf radian, 0, 0],
     ![0, 0, 1, 0],
     ![0, 0, 0, 1]]⟩

namespace Matrix4x4

/-- Function.cpp `Add(const Matrix4x4&, const Matrix4x4&)`. -/
def Add (m1 m2 : Matrix4x4 F) : Matrix4x4 F :=
  ⟨fun i j => m1.m i j + m2.m i j⟩

/-- Function.cpp `Subtract(const Matrix4x4&, const Matrix4x4&)`. -/
def Subtract (m1 m2 : Matrix4x4 F) : Matrix4x4 F :=
  ⟨fun i j => m1.m i j - m2.m i j⟩

/-- Function.cpp `Multiply(const Matrix4x4&, const Matrix4x4&)`. -/
def Multiply (a b : Matrix4x4 F) : Matrix4x4 F :=
  ⟨fun i j => a.m i 0 * b.m 0 j + a.m i 1 * b.m 1 j + a.m i 2 * b.m 2 j + a.m i 3 * b.m 3 j⟩

end Matrix4x4

/-- Function.cpp `Transpose`. -/
def Transpose (m : Matrix4x4 F) : Matrix4x4 F :=
  ⟨fun i j => m.m j i⟩

/-- Function.cpp `MakeIdentity`: zero-initialised, then `m[i][i] = 1.0f`. -/
def MakeIdentity : Matrix4x4 F :=
  ⟨fun i j => if i = j then 1 else 0⟩

/-- Function.cpp `MakeRotateMatrix`. -/
def MakeRotateMatrix (cosf sinf : F → F) (roll pitch yaw : F) : Matrix4x4 F :=
  let rotateX := MakeRotateXMatrix cosf sinf roll
  let rotateY := MakeRotateYMatrix cosf sinf pitch
  let rotateZ := MakeRotateZMatrix cosf sinf yaw
  Matrix4x4.Multiply (Matrix4x4.Multiply rotateX rotateY) rotateZ

/-- Function.cpp `MakeAffineMatrix`. -/
def MakeAffineMatrix (cosf sinf : F → F) (scale rotate translate : Vector3 F) : Matrix4x4 F :=
  let scaleMatrix := MakeScaleMatrix scale
  let rotateMatrix := MakeRotateMatrix cosf sinf rotate.x rotate.y rotate.z
  let translateMatrix := MakeTranslateMatrix translate
  Matrix4x4.Multiply (Matrix4x4.Multiply scaleMatrix rotateMatrix) translateMatrix

/-- Function.cpp `MakePerspectiveFovMatrix`. -/
def MakePerspectiveFovMatrix (tanf : F → F) (fovY aspectRatio nearClip farClip : F) :
    Matrix4x4 F :=
  let f := 1 / tanf (fovY / 2)
  ⟨![![f / aspectRatio, 0, 0, 0],
     ![0, f, 0, 0],
     ![0, 0, farClip / (farClip - nearClip), 1],
     ![0, 0, (-nearClip * farClip) / (farClip - nearClip), 0]]⟩

/-- Function.cpp `MakeOrthographicMatrix`. -/
def MakeOrthographicMatrix (left top right bottom nearClip farClip : F) : Matrix4x4 F :=
  ⟨![![2 / (right - left), 0, 0, 0],
     ![0, 2 / (top - bottom), 0, 0],
     ![0, 0, 1 / (farClip - nearClip), 0],
     ![(left + right) / (left - right), (top + bottom) / (bottom - top),
       nearClip / (nearClip - farClip), 1]]⟩

/-- Function.cpp `MakeViewportMatrix`. -/
def MakeViewportMatrix (left top width height minDepth maxDepth : F) : Matrix4x4 F :=
  ⟨![![width / 2, 0, 0, 0],
     ![0, -height / 2, 0, 0],
     ![0, 0, maxDepth - minDepth, 0],
     ![left + width / 2, top + height / 2, minDepth, 1]]⟩

/-- Function.cpp `MakeRotateAxisAngle`. -/
def MakeRotateAxisAngle (cosf sinf : F → F) (axis : Vector3 F) (angle : F) : Matrix4x4 F :=
  ⟨![![axis.x * axis.x * (1 - cosf angle) + cosf angle,
       axis.x * axis.y * (1 - cosf angle) + axis.z * sinf angle,
       axis.x * axis.z * (1 - cosf angle) - axis.y * sinf angle, 0],
     ![axis.x * axis.y * (1 - cosf angle) - axis.z * sinf angle,
       axis.y * axis.y * (1 - cosf angle) + cosf angle,
       axis.y * axis.z * (1 - cosf angle) + axis.x * sinf angle, 0],
     ![axis.x * axis.z * (1 - cosf angle) + axis.y * sinf angle,
       axis.y * axis.z * (1 - cosf angle) - axis.x * sinf angle,
       axis.z * axis.z * (1 - cosf angle) + cosf angle, 0],
     ![0, 0, 0, 1]]⟩

end Source

/-! ## Binary32 arithmetic

The C++ `float` as IEEE-754 binary32 with round-to-nearest, ties-to-even: the second reading
of the scalar type, next to the exact ordered field.  A finite value is kept as the dyadic
number `m * 2^e` in lowest terms (`m` odd, or `m = 0` and `e = 0`), so equality of values is
equality of terms.  The two zeros are one value (they compare equal in C++), there is one NaN,
and a finite non-zero value divided by zero is the infinity with the sign of the dividend.
-/

/-- A binary32 value: a finite dyadic `m * 2^e`, an infinity, or NaN. -/
inductive F32 where
  | fin (m : Int) (e : Int)
  | inf (negative : Bool)
  | nan
deriving DecidableEq

namespace F32

/-- Number of binary digits of `n` (at most `fuel`). -/
def bitLength : Nat → Nat → Nat
  | 0, _ => 0
  | fuel + 1, n => if n = 0 then 0 else bitLength fuel (n / 2) + 1

/-- Lowest terms of `n * 2^e`: trailing zero bits of `n` are moved into the exponent. -/
def lowest : Nat → Nat → Int → Nat × Int
  | 0, n, e => (n, e)
  | fuel + 1, n, e => if n ≠ 0 ∧ n % 2 = 0 then lowest fuel (n / 2) (e + 1) else (n, e)

/-- The value `± n * 2^e`, already on the binary32 grid: infinity from `2^128` on, else the
finite value in lowest terms. -/
def pack (negative : Bool) (n : Nat) (e : Int) : F32 :=
  if n = 0 then fin 0 0
  else if 128 < e + bitLength 400 n then inf negative
  else
    let p := lowest 400 n e
    fin (if negative then -(p.1 : Int) else (p.1 : Int)) p.2

/-- Round `± (n + d) * 2^e` to binary32, where `0 < d < 1` when `sticky` and `d = 0` otherwise:
24 significant bits, last kept bit of weight at least `2^-149`, ties to even.  With `sticky`
the caller supplies at least 26 bits in `n`. -/
def round (negative : Bool) (n : Nat) (e : Int) (sticky : Bool) : F32 :=
  let q : Int := max (e + bitLength 400 n - 24) (-149)
  if q ≤ e then pack negative n e
  else
    let k : Nat := (q - e).toNat
    let m0 : Nat := n / 2 ^ k
    let r : Nat := n % 2 ^ k
    let half : Nat := 2 ^ (k - 1)
    let up := decide (half < r) || (decide (r = half) && (sticky || decide (m0 % 2 = 1)))
    pack negative (if up then m0 + 1 else m0) q

/-- The value with the given IEEE-754 bit pattern, e.g. `0x3f800000` is `1.0f`. -/
def ofBits (b : Nat) : F32 :=
  let negative := decide (b / 2 ^ 31 % 2 = 1)
  let ex : Nat := b / 2 ^ 23 % 256
  let fr : Nat := b % 2 ^ 23
  if ex = 255 then (if fr = 0 then inf negative else nan)
  else if ex = 0 then pack negative fr (-149)
  else pack negative (2 ^ 23 + fr) ((ex : Int) - 150)

/-- Unary minus. -/
def neg : F32 → F32
  | fin m e => fin (-m) e
  | inf s => inf (!s)
  | nan => nan

/-- Binary32 addition. -/
def add : F32 → F32 → F32
  | fin m1 e1, fin m2 e2 =>
    let e := min e1 e2
    let s : Int := m1 * 2 ^ (e1 - e).toNat + m2 * 2 ^ (e2 - e).toNat
    round (decide (s < 0)) s.natAbs e false
  | fin _ _, inf s => inf s
  | inf s, fin _ _ => inf s
  | inf s1, inf s2 => if s1 = s2 then inf s1 else nan
  | _, _ => nan

/-- Binary32 multiplication. -/
def mul : F32 → F32 → F32
  | fin m1 e1, fin m2 e2 => round (decide (m1 * m2 < 0)) (m1 * m2).natAbs (e1 + e2) false
  | fin m _, inf s => if m = 0 then nan else inf (decide (m < 0) != s)
  | inf s, fin m _ => if m = 0 then nan else inf (decide (m < 0) != s)
  | inf s1, inf s2 => inf (s1 != s2)
  | _, _ => nan

/-- Binary32 division; the quotient of the significands is taken to 64 extra bits and the
remainder is the sticky bit. -/
def div : F32 → F32 → F32
  | fin m1 e1, fin m2 e2 =>
    if m2 = 0 then (if m1 = 0 then nan else inf (decide (m1 < 0)))
    else
      let n : Nat := m1.natAbs * 2 ^ 64
      round (decide (m1 < 0) != decide (m2 < 0)) (n / m2.natAbs) (e1 - e2 - 64)
        (decide (n % m2.natAbs ≠ 0))
  | fin _ _, inf _ => fin 0 0
  | inf s, fin m _ => inf (s != decide (m < 0))
  | _, _ => nan

/-- Integer square root, bit by bit from bit `i - 1` down. -/
def isqrt : Nat → Nat → Nat → Nat
  | 0, r, _ => r
  | i + 1, r, n => if (r + 2 ^ i) * (r + 2 ^ i) ≤ n then isqrt i (r + 2 ^ i) n else isqrt i r n

/-- Binary32 `sqrtf`: the significand is scaled by `2^64` or `2^65` (to an even exponent),
its integer square root is taken and inexactness is the sticky bit. -/
def sqrt : F32 → F32
  | fin m e =>
    if m < 0 then nan
    else
      let s : Nat := if e.natAbs % 2 = 1 then 65 else 64
      let n : Nat := m.natAbs * 2 ^ s
      let t : Nat := isqrt 64 0 n
      round false t ((e - s) / 2) (decide (t * t ≠ n))
  | inf s => if s then nan else inf false
  | nan => nan

/-- Binary32 `<`: false when either side is NaN. -/
def blt : F32 → F32 → Bool
  | fin m1 e1, fin m2 e2 =>
    decide (m1 * 2 ^ (e1 - min e1 e2).toNat < m2 * 2 ^ (e2 - min e1 e2).toNat)
  | fin _ _, inf s => !s
  | inf s, fin _ _ => s
  | inf s1, inf s2 => s1 && !s2
  | _, _ => false

/-- Binary32 `<=`: false when either side is NaN. -/
def ble : F32 → F32 → Bool
  | nan, _ => false
  | _, nan => false
  | a, b => blt a b || decide (a = b)

instance : Zero F32 := ⟨fin 0 0⟩
instance : One F32 := ⟨fin 1 0⟩
/-- An integer literal, rounded to binary32. -/
instance (n : Nat) : OfNat F32 n := ⟨round false n 0 false⟩
instance : Neg F32 := ⟨neg⟩
instance : Add F32 := ⟨add⟩
instance : Sub F32 := ⟨fun a b => add a (neg b)⟩
instance : Mul F32 := ⟨mul⟩
instance : Div F32 := ⟨div⟩
/-- The square `pow(x, 2)`: the source squares in double precision, where the square of a
binary32 value is exact, and converts back, which is the binary32 product `x * x`.  No other
exponent occurs; it gives NaN. -/
instance : HPow F32 Nat F32 := ⟨fun a n => if n = 2 then mul a a else nan⟩
instance : LT F32 := ⟨fun a b => blt a b = true⟩
instance : LE F32 := ⟨fun a b => ble a b = true⟩
instance (a b : F32) : Decidable (a < b) := inferInstanceAs (Decidable (blt a b = true))
instance (a b : F32) : Decidable (a ≤ b) := inferInstanceAs (Decidable (ble a b = true))

/-- The C library `cosf` at the arguments used in the binary32 examples below (nearest
binary32 to the cosine): `0.1f`, `0.2f`, `0.3f`, `1.0f` and `1.57079637f`; NaN elsewhere. -/
def cosf (x : F32) : F32 :=
  if x = ofBits 0x3dcccccd then ofBits 0x3f7eb898
  else if x = ofBits 0x3e4ccccd then ofBits 0x3f7ae5a5
  else if x = ofBits 0x3e99999a then ofBits 0x3f7490ef
  else if x = ofBits 0x3f800000 then ofBits 0x3f0a5140
  else if x = ofBits 0x3fc90fdb then ofBits 0xb33bbd2e
  else nan

/-- The C library `sinf` at the same arguments (nearest binary32 to the sine); NaN
elsewhere. -/
def sinf (x : F32) : F32 :=
  if x = ofBits 0x3dcccccd then ofBits 0x3dcc7577
  else if x = ofBits 0x3e4ccccd then ofBits 0x3e4b6ff9
  else if x = ofBits 0x3e99999a then ofBits 0x3e974e6d
  else if x = ofBits 0x3f800000 then ofBits 0x3f576aa4
  else if x = ofBits 0x3fc90fdb then ofBits 0x3f800000
  else nan

/-- The C library `tanf` at `0.5f` (nearest binary32 to the tangent); NaN elsewhere. -/
def tanf (x : F32) : F32 :=
  if x = ofBits 0x3f000000 then ofBits 0x3f0bda7b else nan

end F32

variable {F : Type} [LinearOrderedField F]

/-! ## Determinant and adjugate of `Inverse` -/

theorem Inverse.mul_num (M : Matrix4x4 F) (i j : Fin 4) :
    (Matrix4x4.Multiply M (Inverse.num M)).m i j = if i = j then Inverse.det M else 0 := by
  fin_cases i <;> fin_cases j <;>
    simp only [Matrix4x4.Multiply, Inverse.num, Inverse.det, Matrix.cons_val_zero,
      Matrix.cons_val_one, Matrix.head_cons, Matrix.cons_val_two, Matrix.tail_cons,
      Matrix.cons_val_three, Fin.zero_eta, Fin.mk_one, Fin.reduceFinMk, Fin.isValue,
      Fin.reduceEq, if_true, if_false] <;> ring

theorem Inverse.num_mul (M : Matrix4x4 F) (i j : Fin 4) :
    (Matrix4x4.Multiply (Inverse.num M) M).m i j = if i = j then Inverse.det M else 0 := by
  fin_cases i <;> fin_cases j <;>
    simp only [Matrix4x4.Multiply, Inverse.num, Inverse.det, Matrix.cons_val_zero,
      Matrix.cons_val_one, Matrix.head_cons, Matrix.cons_val_two, Matrix.tail_cons,
      Matrix.cons_val_three, Fin.zero_eta, Fin.mk_one, Fin.reduceFinMk, Fin.isValue,
      Fin.reduceEq, if_true, if_false] <;> ring

/-- The 24-term expansion is the determinant of the 4x4 array. -/
theorem Inverse.det_eq (M : Matrix4x4 F) :
    Inverse.det M = Matrix.det (Matrix.of M.m) := by
  have h3 : (Fin.succ (2 : Fin 3) : Fin 4) = 3 := rfl
  have h2 : (Fin.castSucc (2 : Fin 3) : Fin 4) = 2 := rfl
  have hv : ((3 : Fin 4) : ℕ) = 3 := rfl
  have c1 : ((1 : Fin 4) < 3) := by decide
  have c2 : ¬ ((2 : Fin 4) < 2) := by decide
  rw [Matrix.det_succ_row_zero]
  simp only [Fin.sum_univ_succ, Matrix.det_fin_three, Matrix.submatrix_apply, Matrix.of_apply]
  simp [Fin.succAbove, Inverse.det, h3, h2, c1, c2, hv]
  ring

theorem Inverse.det_mul (A B : Matrix4x4 F) :
    Inverse.det (Matrix4x4.Multiply A B) = Inverse.det A * Inverse.det B := by
  have h3 : (Fin.succ (2 : Fin 3) : Fin 4) = 3 := rfl
  have h : Matrix.of (Matrix4x4.Multiply A B).m = Matrix.of A.m * Matrix.of B.m := by
    ext i j
    simp [Matrix4x4.Multiply, Matrix.mul_apply, Fin.sum_univ_succ, h3]
    ring
  rw [Inverse.det_eq, Inverse.det_eq, Inverse.det_eq, h, Matrix.det_mul]

theorem Inverse.det_identity : Inverse.det (MakeIdentity : Matrix4x4 F) = 1 := by
  simp [Inverse.det, MakeIdentity]

/-- A right inverse forces the 24-term determinant to be non-zero. -/
theorem Inverse.det_ne_zero_of_right_inverse (M N : Matrix4x4 F)
    (h : Matrix4x4.Multiply M N = MakeIdentity) : Inverse.det M ≠ 0 := by
  intro h0
  have h1 := Inverse.det_mul M N
  rw [h, Inverse.det_identity, h0, zero_mul] at h1
  exact one_ne_zero h1

/-- With a non-zero determinant the result of `Inverse` is a two-sided inverse. -/
theorem Inverse.two_sided_of_det_ne_zero (M : Matrix4x4 F) (hd : Inverse.det M ≠ 0) :
    Matrix4x4.Multiply M (Inverse M) = MakeIdentity ∧
    Matrix4x4.Multiply (Inverse M) M = MakeIdentity := by
  have hI : Inverse M = ⟨fun i j => (Inverse.num M).m i j / Inverse.det M⟩ := by
    simp [Inverse, hd]
  constructor
  · ext i j
    have h := Inverse.mul_num M i j
    have e : (Matrix4x4.Multiply M (Inverse M)).m i j
        = (Matrix4x4.Multiply M (Inverse.num M)).m i j / Inverse.det M := by
      rw [hI]; simp only [Matrix4x4.Multiply]; ring
    rw [e, h]
    by_cases hij : i = j <;> simp [MakeIdentity, hij, hd]
  · ext i j
    have h := Inverse.num_mul M i j
    have e : (Matrix4x4.Multiply (Inverse M) M).m i j
        = (Matrix4x4.Multiply (Inverse.num M) M).m i j / Inverse.det M := by
      rw [hI]; simp only [Matrix4x4.Multiply]; ring
    rw [e, h]
    by_cases hij : i = j <;> simp [MakeIdentity, hij, hd]

/-! ## Vector lemmas -/

theorem Dot_self_nonneg (v : Vector3 F) : 0 ≤ Dot v v := by
  simp only [Dot]
  nlinarith [mul_self_nonneg v.x, mul_self_nonneg v.y, mul_self_nonneg v.z]

theorem Dot_self_eq_zero (v : Vector3 F) (h : Dot v v = 0) : v = ⟨0, 0, 0⟩ := by
  simp only [Dot] at h
  have hx : v.x = 0 := by
    nlinarith [mul_self_nonneg v.x, mul_self_nonneg v.y, mul_self_nonneg v.z]
  have hy : v.y = 0 := by
    nlinarith [mul_self_nonneg v.x, mul_self_nonneg v.y, mul_self_nonneg v.z]
  have hz : v.z = 0 := by
    nlinarith [mul_self_nonneg v.x, mul_self_nonneg v.y, mul_self_nonneg v.z]
  ext <;> assumption

theorem Dot_self_pos (v : Vector3 F) (h : v ≠ ⟨0, 0, 0⟩) : 0 < Dot v v :=
  lt_of_le_of_ne (Dot_self_nonneg v) (fun h0 => h (Dot_self_eq_zero v h0.symm))

/-- The source's parameter `t` of `ClosestPoint`, written with `Dot` and `Subtract`, and the
three branches of the clamp. -/
theorem ClosestPoint_branches (lineStart lineEnd point : Vector3 F) :
    ClosestPoint lineStart lineEnd point =
      if Dot (Vector3.Subtract point lineStart) (Vector3.Subtract lineEnd lineStart)
          / Dot (Vector3.Subtract lineEnd lineStart) (Vector3.Subtract lineEnd lineStart) < 0
      then lineStart
      else if 1 < Dot (Vector3.Subtract point lineStart) (Vector3.Subtract lineEnd lineStart)
          / Dot (Vector3.Subtract lineEnd lineStart) (Vector3.Subtract lineEnd lineStart)
      then lineEnd
      else Vector3.Add lineStart (Vector3.Multiply
        (Dot (Vector3.Subtract point lineStart) (Vector3.Subtract lineEnd lineStart)
          / Dot (Vector3.Subtract lineEnd lineStart) (Vector3.Subtract lineEnd lineStart))
        (Vector3.Subtract lineEnd lineStart)) := by
  have ht : ((lineEnd.x - lineStart.x) * (point.x - lineStart.x)
        + (lineEnd.y - lineStart.y) * (point.y - lineStart.y)
        + (lineEnd.z - lineStart.z) * (point.z - lineStart.z))
        / ((lineEnd.x - lineStart.x) * (lineEnd.x - lineStart.x)
          + (lineEnd.y - lineStart.y) * (lineEnd.y - lineStart.y)
          + (lineEnd.z - lineStart.z) * (lineEnd.z - lineStart.z))
      = Dot (Vector3.Subtract point lineStart) (Vector3.Subtract lineEnd lineStart)
          / Dot (Vector3.Subtract lineEnd lineStart) (Vector3.Subtract lineEnd lineStart) := by
    simp only [Dot, Vector3.Subtract]
    congr 1
    ring
  simp only [ClosestPoint, gt_iff_lt, ht]
  rfl

/-- Squared distance from `p` to the point of parameter `s` on the line through `a`, `b`,
minus the squared distance to the point of parameter `t`, when `t·|b−a|² = (p−a)·(b−a)`. -/
theorem segment_dist_diff (a b p : Vector3 F) (s t : F)
    (ht : t * Dot (Vector3.Subtract b a) (Vector3.Subtract b a)
      = Dot (Vector3.Subtract p a) (Vector3.Subtract b a)) (u : F) :
    Dot (Vector3.Subtract p (Vector3.Add a (Vector3.Multiply s (Vector3.Subtract b a))))
        (Vector3.Subtract p (Vector3.Add a (Vector3.Multiply s (Vector3.Subtract b a))))
      - Dot (Vector3.Subtract p (Vector3.Add a (Vector3.Multiply u (Vector3.Subtract b a))))
        (Vector3.Subtract p (Vector3.Add a (Vector3.Multiply u (Vector3.Subtract b a))))
      = (s - u) * (s + u - 2 * t) * Dot (Vector3.Subtract b a) (Vector3.Subtract b a) := by
  simp only [Dot, Vector3.Subtract, Vector3.Add, Vector3.Multiply] at ht ⊢
  linear_combination (2 * (s - u)) * ht

theorem segment_start (a b : Vector3 F) :
    Vector3.Add a (Vector3.Multiply 0 (Vector3.Subtract b a)) = a := by
  ext <;> simp [Vector3.Add, Vector3.Multiply]

theorem segment_end (a b : Vector3 F) :
    Vector3.Add a (Vector3.Multiply 1 (Vector3.Subtract b a)) = b := by
  ext <;> simp [Vector3.Add, Vector3.Multiply, Vector3.Subtract]

theorem Subtract_ne_zero (a b : Vector3 F) (h : a ≠ b) : Vector3.Subtract b a ≠ ⟨0, 0, 0⟩ := by
  intro e
  apply h
  have hx := congrArg Vector3.x e
  have hy := congrArg Vector3.y e
  have hz := congrArg Vector3.z e
  simp only [Vector3.Subtract] at hx hy hz
  ext
  · exact (sub_eq_zero.mp hx).symm
  · exact (sub_eq_zero.mp hy).symm
  · exact (sub_eq_zero.mp hz).symm

/-- The last column of `MakeRotateMatrix` is `(0, 0, 0, 1)`, whatever `cosf` and `sinf`
return. -/
theorem MakeRotateMatrix_last_column (cosf sinf : F → F) (roll pitch yaw : F) :
    (MakeRotateMatrix cosf sinf roll pitch yaw).m 0 3 = 0 ∧
    (MakeRotateMatrix cosf sinf roll pitch yaw).m 1 3 = 0 ∧
    (MakeRotateMatrix cosf sinf roll pitch yaw).m 2 3 = 0 ∧
    (MakeRotateMatrix cosf sinf roll pitch yaw).m 3 3 = 1 := by
  simp [MakeRotateMatrix, Matrix4x4.Multiply, MakeRotateXMatrix, MakeRotateYMatrix,
    MakeRotateZMatrix]

/-! ## Claims -/

/-- C1: for every invertible 4x4 matrix `M` (some `N` has `Multiply(M, N) = MakeIdentity()`),
`Inverse(M)` is a two-sided inverse: `Multiply(M, Inverse(M)) = MakeIdentity()` and
`Multiply(Inverse(M), M) = MakeIdentity()`, the scalars being an exact ordered field. -/
theorem inverse_two_sided (M : Matrix4x4 F)
    (h : ∃ N : Matrix4x4 F, Matrix4x4.Multiply M N = MakeIdentity) :
    Matrix4x4.Multiply M (Inverse M) = MakeIdentity ∧
    Matrix4x4.Multiply (Inverse M) M = MakeIdentity := by
  obtain ⟨N, hN⟩ := h
  exact Inverse.two_sided_of_det_ne_zero M (Inverse.det_ne_zero_of_right_inverse M N hN)

/-- Witness for C1 at the scale matrix `diag(2, 4, 5, 1)` over the reals. -/
theorem inverse_two_sided_witness :
    (∃ N : Matrix4x4 ℝ, Matrix4x4.Multiply (MakeScaleMatrix ⟨2, 4, 5⟩) N = MakeIdentity) ∧
    Matrix4x4.Multiply (MakeScaleMatrix (⟨2, 4, 5⟩ : Vector3 ℝ))
      (Inverse (MakeScaleMatrix ⟨2, 4, 5⟩)) = MakeIdentity ∧
    Matrix4x4.Multiply (Inverse (MakeScaleMatrix (⟨2, 4, 5⟩ : Vector3 ℝ)))
      (MakeScaleMatrix ⟨2, 4, 5⟩) = MakeIdentity :=
  have hN : Matrix4x4.Multiply (MakeScaleMatrix (⟨2, 4, 5⟩ : Vector3 ℝ))
      (MakeScaleMatrix ⟨1 / 2, 1 / 4, 1 / 5⟩) = MakeIdentity := by
    ext i j
    fin_cases i <;> fin_cases j <;>
      simp [Matrix4x4.Multiply, MakeScaleMatrix, MakeIdentity, Matrix.vecHead, Matrix.vecTail]
  ⟨⟨_, hN⟩, inverse_two_sided _ ⟨_, hN⟩⟩

/-- C2, with float arithmetic read as exact arithmetic (the exact reading of the scalar
type): `Inverse(M)` is the all-zero matrix exactly when `M` is singular (no `N` with
`Multiply(M, N) = MakeIdentity()`): every singular input, the all-zero matrix among them,
gives the all-zero matrix, and every non-singular input gives a matrix that is not all-zero.
`Inverse` is a total function, so no input fails. -/
theorem inverse_zero_iff_singular (M : Matrix4x4 F) :
    (Inverse M = ⟨fun _ _ => 0⟩ ↔ ¬ ∃ N : Matrix4x4 F, Matrix4x4.Multiply M N = MakeIdentity) ∧
    Inverse (⟨fun _ _ => 0⟩ : Matrix4x4 F) = ⟨fun _ _ => 0⟩ := by
  refine ⟨⟨?_, ?_⟩, ?_⟩
  · rintro hz ⟨N, hN⟩
    have hd := Inverse.det_ne_zero_of_right_inverse M N hN
    have h1 := (Inverse.two_sided_of_det_ne_zero M hd).1
    rw [hz] at h1
    have h2 := congrArg (fun A : Matrix4x4 F => A.m 0 0) h1
    simp [Matrix4x4.Multiply, MakeIdentity] at h2
  · intro hs
    by_cases hd : Inverse.det M = 0
    · simp [Inverse, hd]
    · exact absurd ⟨Inverse M, (Inverse.two_sided_of_det_ne_zero M hd).1⟩ hs
  · simp [Inverse, Inverse.det]

/-- C3: `Transform(M, v)` fails its assertion exactly when
`w = M[0][3]*v.x + M[1][3]*v.y + M[2][3]*v.z + M[3][3]` is zero; otherwise it returns the
first three components of the row-vector product `(v.x, v.y, v.z, 1)·M`, each divided by `w`
(the fourth component of that product). -/
theorem transform_assert_iff (M : Matrix4x4 F) (v : Vector3 F) :
    (Transform M v = none ↔
      M.m 0 3 * v.x + M.m 1 3 * v.y + M.m 2 3 * v.z + M.m 3 3 = 0) ∧
    Matrix.vecMul ![v.x, v.y, v.z, 1] (Matrix.of M.m) 3
      = M.m 0 3 * v.x + M.m 1 3 * v.y + M.m 2 3 * v.z + M.m 3 3 ∧
    Transform M v =
      if M.m 0 3 * v.x + M.m 1 3 * v.y + M.m 2 3 * v.z + M.m 3 3 = 0 then none
      else some
        ⟨Matrix.vecMul ![v.x, v.y, v.z, 1] (Matrix.of M.m) 0
            / (M.m 0 3 * v.x + M.m 1 3 * v.y + M.m 2 3 * v.z + M.m 3 3),
         Matrix.vecMul ![v.x, v.y, v.z, 1] (Matrix.of M.m) 1
            / (M.m 0 3 * v.x + M.m 1 3 * v.y + M.m 2 3 * v.z + M.m 3 3),
         Matrix.vecMul ![v.x, v.y, v.z, 1] (Matrix.of M.m) 2
            / (M.m 0 3 * v.x + M.m 1 3 * v.y + M.m 2 3 * v.z + M.m 3 3)⟩ := by
  have h3 : (Fin.succ (2 : Fin 3) : Fin 4) = 3 := rfl
  have hr : ∀ j : Fin 4, Matrix.vecMul ![v.x, v.y, v.z, 1] (Matrix.of M.m) j
      = M.m 0 j * v.x + M.m 1 j * v.y + M.m 2 j * v.z + M.m 3 j := by
    intro j
    simp [Matrix.vecMul, Matrix.dotProduct, Fin.sum_univ_succ, h3]
    ring
  refine ⟨?_, hr 3, ?_⟩
  · by_cases hw : M.m 0 3 * v.x + M.m 1 3 * v.y + M.m 2 3 * v.z + M.m 3 3 = 0 <;>
      simp [Transform, hw]
  · rw [hr 0, hr 1, hr 2]
    by_cases hw : M.m 0 3 * v.x + M.m 1 3 * v.y + M.m 2 3 * v.z + M.m 3 3 = 0 <;>
      simp [Transform, hw]

/-- C5: the silent zero policy.  `Normalize({0,0,0})` is exactly `{0,0,0}`, and for every
`v1`, `Project(v1, v2)` is exactly `{0,0,0}` whenever `Length(v2)` is 0; both are total
functions, so neither call fails.  This holds whatever `sqrtf` returns. -/
theorem silent_zero_policy (sqrtf : F → F) :
    Normalize sqrtf (⟨0, 0, 0⟩ : Vector3 F) = ⟨0, 0, 0⟩ ∧
    ∀ v1 v2 : Vector3 F, Length sqrtf v2 = 0 → Project sqrtf v1 v2 = ⟨0, 0, 0⟩ := by
  constructor
  · by_cases h0 : Length sqrtf (⟨0, 0, 0⟩ : Vector3 F) = 0
    · simp [Normalize, h0]
    · simp [Normalize, h0, Vector3.Multiply]
  · intro v1 v2 h
    simp [Project, h]

/-- Witness for C5 with the real square root, `v1 = (1, 2, 3)` and `v2 = (0, 0, 0)`. -/
theorem silent_zero_policy_witness :
    Length Real.sqrt (⟨0, 0, 0⟩ : Vector3 ℝ) = 0 ∧
    Project Real.sqrt (⟨1, 2, 3⟩ : Vector3 ℝ) ⟨0, 0, 0⟩ = ⟨0, 0, 0⟩ :=
  have h : Length Real.sqrt (⟨0, 0, 0⟩ : Vector3 ℝ) = 0 := by simp [Length, Dot]
  ⟨h, (silent_zero_policy Real.sqrt).2 ⟨1, 2, 3⟩ ⟨0, 0, 0⟩ h⟩

/-- C6, with float arithmetic read as exact arithmetic (the exact reading of the scalar
type): for every segment with `lineStart ≠ lineEnd` and every point `p`,
`ClosestPoint(lineStart, lineEnd, p)` lies on the segment (it is
`lineStart + s·(lineEnd − lineStart)` for some `s` in `[0,1]`) and no point of the segment is
nearer to `p`: for every `s` in `[0,1]` the distance from `p` to the result is at most the
distance from `p` to `lineStart + s·(lineEnd − lineStart)`. -/
theorem closestPoint_nearest (lineStart lineEnd p : Vector3 ℝ) (h : lineStart ≠ lineEnd) :
    (∃ s : ℝ, 0 ≤ s ∧ s ≤ 1 ∧ ClosestPoint lineStart lineEnd p
      = Vector3.Add lineStart (Vector3.Multiply s (Vector3.Subtract lineEnd lineStart))) ∧
    ∀ s : ℝ, 0 ≤ s → s ≤ 1 →
      Length Real.sqrt (Vector3.Subtract p (ClosestPoint lineStart lineEnd p))
        ≤ Length Real.sqrt (Vector3.Subtract p
            (Vector3.Add lineStart (Vector3.Multiply s (Vector3.Subtract lineEnd lineStart)))) := by
  have hD := Dot_self_pos _ (Subtract_ne_zero lineStart lineEnd h)
  obtain ⟨t, ht⟩ : ∃ t : ℝ, t = Dot (Vector3.Subtract p lineStart)
      (Vector3.Subtract lineEnd lineStart)
      / Dot (Vector3.Subtract lineEnd lineStart) (Vector3.Subtract lineEnd lineStart) := ⟨_, rfl⟩
  have htD : t * Dot (Vector3.Subtract lineEnd lineStart) (Vector3.Subtract lineEnd lineStart)
      = Dot (Vector3.Subtract p lineStart) (Vector3.Subtract lineEnd lineStart) := by
    rw [ht]
    exact div_mul_cancel₀ _ hD.ne'
  -- the result is the point of parameter `u`, the clamp of `t`
  obtain ⟨u, hu0, hu1, hcp, hmin⟩ : ∃ u : ℝ, 0 ≤ u ∧ u ≤ 1 ∧
      ClosestPoint lineStart lineEnd p
        = Vector3.Add lineStart (Vector3.Multiply u (Vector3.Subtract lineEnd lineStart)) ∧
      ∀ s : ℝ, 0 ≤ s → s ≤ 1 → 0 ≤ (s - u) * (s + u - 2 * t) := by
    rw [ClosestPoint_branches, ← ht]
    by_cases h0 : t < 0
    · refine ⟨0, le_refl 0, zero_le_one, ?_, ?_⟩
      · rw [if_pos h0, segment_start]
      · intro s hs0 _
        have : 0 ≤ s * (s - 2 * t) := mul_nonneg hs0 (by linarith)
        calc (0 : ℝ) ≤ s * (s - 2 * t) := this
          _ = (s - 0) * (s + 0 - 2 * t) := by ring
    · by_cases h1 : 1 < t
      · refine ⟨1, zero_le_one, le_refl 1, ?_, ?_⟩
        · rw [if_neg h0, if_pos h1, segment_end]
        · intro s _ hs1
          have : 0 ≤ (1 - s) * (2 * t - s - 1) := mul_nonneg (by linarith) (by linarith)
          calc (0 : ℝ) ≤ (1 - s) * (2 * t - s - 1) := this
            _ = (s - 1) * (s + 1 - 2 * t) := by ring
      · refine ⟨t, not_lt.mp h0, not_lt.mp h1, ?_, ?_⟩
        · rw [if_neg h0, if_neg h1]
        · intro s _ _
          calc (0 : ℝ) ≤ (s - t) * (s - t) := mul_self_nonneg _
            _ = (s - t) * (s + t - 2 * t) := by ring
  refine ⟨⟨u, hu0, hu1, hcp⟩, ?_⟩
  intro s hs0 hs1
  rw [hcp]
  unfold Length
  apply Real.sqrt_le_sqrt
  have hdiff := segment_dist_diff lineStart lineEnd p s t htD u
  have hnn := mul_nonneg (hmin s hs0 hs1) hD.le
  rw [← hdiff] at hnn
  exact sub_nonneg.mp hnn

/-- Witness for C6 on the segment `(0,0,0)→(10,0,0)` with the point `(5,5,0)`. -/
theorem closestPoint_nearest_witness :
    (⟨0, 0, 0⟩ : Vector3 ℝ) ≠ ⟨10, 0, 0⟩ ∧
    ∀ s : ℝ, 0 ≤ s → s ≤ 1 →
      Length Real.sqrt (Vector3.Subtract (⟨5, 5, 0⟩ : Vector3 ℝ)
          (ClosestPoint ⟨0, 0, 0⟩ ⟨10, 0, 0⟩ ⟨5, 5, 0⟩))
        ≤ Length Real.sqrt (Vector3.Subtract (⟨5, 5, 0⟩ : Vector3 ℝ)
            (Vector3.Add ⟨0, 0, 0⟩ (Vector3.Multiply s
              (Vector3.Subtract ⟨10, 0, 0⟩ ⟨0, 0, 0⟩)))) :=
  have h : (⟨0, 0, 0⟩ : Vector3 ℝ) ≠ ⟨10, 0, 0⟩ := by
    intro e
    have := congrArg Vector3.x e
    norm_num at this
  ⟨h, (closestPoint_nearest ⟨0, 0, 0⟩ ⟨10, 0, 0⟩ ⟨5, 5, 0⟩ h).2⟩

/-- C7: for every segment with `lineStart ≠ lineEnd` and point `p`, with
`t = Dot(p − lineStart, lineEnd − lineStart) / Dot(lineEnd − lineStart, lineEnd − lineStart)`:
`ClosestPoint` returns exactly `lineEnd` when `t > 1`, exactly `lineStart` when `t < 0`, and
`lineStart + t·(lineEnd − lineStart)` when `0 ≤ t ≤ 1`; the segment `(0,0,0)→(10,0,0)` with the
point `(5,5,0)` gives `(5,0,0)`. -/
theorem closestPoint_clamp (lineStart lineEnd p : Vector3 F) (_h : lineStart ≠ lineEnd) :
    (Dot (Vector3.Subtract p lineStart) (Vector3.Subtract lineEnd lineStart)
        / Dot (Vector3.Subtract lineEnd lineStart) (Vector3.Subtract lineEnd lineStart) > 1 →
      ClosestPoint lineStart lineEnd p = lineEnd) ∧
    (Dot (Vector3.Subtract p lineStart) (Vector3.Subtract lineEnd lineStart)
        / Dot (Vector3.Subtract lineEnd lineStart) (Vector3.Subtract lineEnd lineStart) < 0 →
      ClosestPoint lineStart lineEnd p = lineStart) ∧
    (0 ≤ Dot (Vector3.Subtract p lineStart) (Vector3.Subtract lineEnd lineStart)
        / Dot (Vector3.Subtract lineEnd lineStart) (Vector3.Subtract lineEnd lineStart) →
      Dot (Vector3.Subtract p lineStart) (Vector3.Subtract lineEnd lineStart)
        / Dot (Vector3.Subtract lineEnd lineStart) (Vector3.Subtract lineEnd lineStart) ≤ 1 →
      ClosestPoint lineStart lineEnd p = Vector3.Add lineStart (Vector3.Multiply
        (Dot (Vector3.Subtract p lineStart) (Vector3.Subtract lineEnd lineStart)
          / Dot (Vector3.Subtract lineEnd lineStart) (Vector3.Subtract lineEnd lineStart))
        (Vector3.Subtract lineEnd lineStart))) ∧
    ClosestPoint (⟨0, 0, 0⟩ : Vector3 F) ⟨10, 0, 0⟩ ⟨5, 5, 0⟩ = ⟨5, 0, 0⟩ := by
  refine ⟨?_, ?_, ?_, ?_⟩
  · intro h1
    rw [ClosestPoint_branches, if_neg (not_lt.mpr (le_trans zero_le_one (le_of_lt h1))),
      if_pos h1]
  · intro h0
    rw [ClosestPoint_branches, if_pos h0]
  · intro h0 h1
    rw [ClosestPoint_branches, if_neg (not_lt.mpr h0), if_neg (not_lt.mpr h1)]
  · have ht : ((10 : F) - 0) * (5 - 0) + (0 - 0) * (5 - 0) + (0 - 0) * (0 - 0) = 50 := by
      norm_num
    have hd : ((10 : F) - 0) * (10 - 0) + (0 - 0) * (0 - 0) + (0 - 0) * (0 - 0) = 100 := by
      norm_num
    have h2 : (50 : F) / 100 = 1 / 2 := by norm_num
    have hn0 : ¬ ((1 : F) / 2 < 0) := by norm_num
    have hn1 : ¬ ((1 : F) / 2 > 1) := by norm_num
    simp only [ClosestPoint, ht, hd, h2, if_neg hn0, if_neg hn1]
    ext <;> norm_num

/-- Witness for C7 over the rationals: segment `(0,0,0)→(10,0,0)`, point `(12,5,0)`, where
`t = 6/5 > 1` and the result is `lineEnd`. -/
theorem closestPoint_clamp_witness :
    (⟨0, 0, 0⟩ : Vector3 ℚ) ≠ ⟨10, 0, 0⟩ ∧
    ClosestPoint (⟨0, 0, 0⟩ : Vector3 ℚ) ⟨10, 0, 0⟩ ⟨12, 5, 0⟩ = ⟨10, 0, 0⟩ :=
  have h : (⟨0, 0, 0⟩ : Vector3 ℚ) ≠ ⟨10, 0, 0⟩ := by decide
  ⟨h, (closestPoint_clamp ⟨0, 0, 0⟩ ⟨10, 0, 0⟩ ⟨12, 5, 0⟩ h).1
    (by norm_num [Dot, Vector3.Subtract])⟩

/-- C8: for every `v1`, `v2` and `t`, `Lerp(v1, v2, t) = t·v1 + (1−t)·v2`; in particular
`Lerp(v1, v2, 0) = v2` and `Lerp(v1, v2, 1) = v1` (the reversed parameter convention). -/
theorem lerp_convention (v1 v2 : Vector3 F) (t : F) :
    Lerp v1 v2 t = ⟨t * v1.x + (1 - t) * v2.x, t * v1.y + (1 - t) * v2.y,
      t * v1.z + (1 - t) * v2.z⟩ ∧
    Lerp v1 v2 0 = v2 ∧ Lerp v1 v2 1 = v1 := by
  refine ⟨rfl, ?_, ?_⟩ <;> ext <;> simp [Lerp, Vector3.Add, Vector3.Multiply]

/-- C9, with float arithmetic read as exact arithmetic (the exact reading of the scalar
type): for every scale `s`, rotation `r`, translation `t` and vector `v`,
`Transform(MakeAffineMatrix(s, r, t), v)` applies scale first, then rotation, then
translation: it is `Add(Transform(MakeRotateMatrix(r.x, r.y, r.z), (s.x·v.x, s.y·v.y, s.z·v.z)), t)`,
where `MakeRotateMatrix(roll, pitch, yaw)` is
`Multiply(Multiply(MakeRotateXMatrix(roll), MakeRotateYMatrix(pitch)), MakeRotateZMatrix(yaw))`;
neither `Transform` call fails its assertion.  This holds whatever `cosf` and `sinf` return. -/
theorem affine_scale_rotate_translate (cosf sinf : F → F) (s r t v : Vector3 F) :
    (∀ roll pitch yaw : F, MakeRotateMatrix cosf sinf roll pitch yaw
      = Matrix4x4.Multiply
          (Matrix4x4.Multiply (MakeRotateXMatrix cosf sinf roll) (MakeRotateYMatrix cosf sinf pitch))
          (MakeRotateZMatrix cosf sinf yaw)) ∧
    ∃ u : Vector3 F,
      Transform (MakeRotateMatrix cosf sinf r.x r.y r.z) ⟨s.x * v.x, s.y * v.y, s.z * v.z⟩
        = some u ∧
      Transform (MakeAffineMatrix cosf sinf s r t) v = some (Vector3.Add u t) := by
  refine ⟨fun _ _ _ => rfl, ?_⟩
  obtain ⟨h0, h1, h2, h3⟩ := MakeRotateMatrix_last_column cosf sinf r.x r.y r.z
  have hA : MakeAffineMatrix cosf sinf s r t
      = Matrix4x4.Multiply
          (Matrix4x4.Multiply (MakeScaleMatrix s) (MakeRotateMatrix cosf sinf r.x r.y r.z))
          (MakeTranslateMatrix t) := rfl
  rw [hA]
  generalize MakeRotateMatrix cosf sinf r.x r.y r.z = R at h0 h1 h2 h3 ⊢
  refine ⟨⟨R.m 0 0 * (s.x * v.x) + R.m 1 0 * (s.y * v.y) + R.m 2 0 * (s.z * v.z) + R.m 3 0,
    R.m 0 1 * (s.x * v.x) + R.m 1 1 * (s.y * v.y) + R.m 2 1 * (s.z * v.z) + R.m 3 1,
    R.m 0 2 * (s.x * v.x) + R.m 1 2 * (s.y * v.y) + R.m 2 2 * (s.z * v.z) + R.m 3 2⟩, ?_, ?_⟩
  · simp [Transform, h0, h1, h2, h3]
  · simp [Transform, Matrix4x4.Multiply, MakeScaleMatrix, MakeTranslateMatrix, h0, h1, h2, h3,
      Vector3.Add, Matrix.vecHead, Matrix.vecTail]
    refine ⟨?_, ?_, ?_⟩ <;> ring

/-- C10: for every matrix `M`, `Multiply(MakeIdentity(), M) = M` and
`Multiply(M, MakeIdentity()) = M`, element-wise. -/
theorem multiply_identity (M : Matrix4x4 F) :
    Matrix4x4.Multiply MakeIdentity M = M ∧ Matrix4x4.Multiply M MakeIdentity = M := by
  constructor
  · ext i j
    fin_cases i <;> simp [Matrix4x4.Multiply, MakeIdentity]
  · ext i j
    fin_cases j <;> simp [Matrix4x4.Multiply, MakeIdentity]

/-! ## Claims on projection, viewport, rotation and the remaining vector operations -/

/-- `Transform` through `MakePerspectiveFovMatrix`: `w` is the view-space `z`, so a point
with `z ≠ 0` passes the assertion. -/
theorem Transform_perspective (tanf : F → F) (fovY aspectRatio nearClip farClip : F)
    (v : Vector3 F) (hz : v.z ≠ 0) :
    Transform (MakePerspectiveFovMatrix tanf fovY aspectRatio nearClip farClip) v
      = some ⟨1 / tanf (fovY / 2) / aspectRatio * v.x / v.z,
          1 / tanf (fovY / 2) * v.y / v.z,
          (farClip / (farClip - nearClip) * v.z + -nearClip * farClip / (farClip - nearClip))
            / v.z⟩ := by
  simp [Transform, MakePerspectiveFovMatrix, Matrix.vecHead, Matrix.vecTail, hz]

/-- Unit length over the reals means `Dot(v, v) = 1`. -/
theorem Dot_self_of_Length_one (v : Vector3 ℝ) (h : Length Real.sqrt v = 1) : Dot v v = 1 := by
  unfold Length at h
  have h0 : (0 : ℝ) ≤ Dot v v := Dot_self_nonneg v
  have h2 := Real.mul_self_sqrt h0
  rw [h] at h2
  linarith

/-- C11, with float arithmetic read as exact arithmetic (the exact reading of the scalar
type): for `0 < near < far`, any `fovY` with `tan(fovY/2) ≠ 0` and any `aspect ≠ 0`, the
matrix `P = MakePerspectiveFovMatrix(fovY, aspect, near, far)` maps view-space depth into
`[0,1]` after the divide by `w`: for every point `(x, y, z)` with `near ≤ z ≤ far`,
`Transform(P, (x,y,z))` passes the assertion and its `z` lies in `[0,1]`, is 0 when
`z = near` and is 1 when `z = far`. -/
theorem perspective_depth_range (tanf : F → F) (fovY aspectRatio nearClip farClip x y z : F)
    (hn : 0 < nearClip) (hnf : nearClip < farClip) (_ht : tanf (fovY / 2) ≠ 0)
    (_ha : aspectRatio ≠ 0) (hz1 : nearClip ≤ z) (hz2 : z ≤ farClip) :
    (∃ u : Vector3 F,
      Transform (MakePerspectiveFovMatrix tanf fovY aspectRatio nearClip farClip) ⟨x, y, z⟩
        = some u ∧ 0 ≤ u.z ∧ u.z ≤ 1) ∧
    (∃ u : Vector3 F,
      Transform (MakePerspectiveFovMatrix tanf fovY aspectRatio nearClip farClip)
        ⟨x, y, nearClip⟩ = some u ∧ u.z = 0) ∧
    (∃ u : Vector3 F,
      Transform (MakePerspectiveFovMatrix tanf fovY aspectRatio nearClip farClip)
        ⟨x, y, farClip⟩ = some u ∧ u.z = 1) := by
  have hf : 0 < farClip := lt_trans hn hnf
  have hd : 0 < farClip - nearClip := sub_pos.mpr hnf
  have hz : 0 < z := lt_of_lt_of_le hn hz1
  have key : ∀ c : F, 0 < c →
      (farClip / (farClip - nearClip) * c + -nearClip * farClip / (farClip - nearClip)) / c
        = farClip * (c - nearClip) / ((farClip - nearClip) * c) := by
    intro c hc
    field_simp
    ring
  refine ⟨⟨_, Transform_perspective tanf fovY aspectRatio nearClip farClip ⟨x, y, z⟩ hz.ne',
      ?_, ?_⟩,
    ⟨_, Transform_perspective tanf fovY aspectRatio nearClip farClip ⟨x, y, nearClip⟩ hn.ne',
      ?_⟩,
    ⟨_, Transform_perspective tanf fovY aspectRatio nearClip farClip ⟨x, y, farClip⟩ hf.ne',
      ?_⟩⟩
  · show 0 ≤ (farClip / (farClip - nearClip) * z + -nearClip * farClip / (farClip - nearClip)) / z
    rw [key z hz]
    exact div_nonneg (mul_nonneg hf.le (sub_nonneg.mpr hz1)) (mul_pos hd hz).le
  · show (farClip / (farClip - nearClip) * z + -nearClip * farClip / (farClip - nearClip)) / z ≤ 1
    rw [key z hz, div_le_one (mul_pos hd hz)]
    nlinarith [mul_nonneg hn.le (sub_nonneg.mpr hz2)]
  · show (farClip / (farClip - nearClip) * nearClip
        + -nearClip * farClip / (farClip - nearClip)) / nearClip = 0
    rw [key nearClip hn]
    simp
  · show (farClip / (farClip - nearClip) * farClip
        + -nearClip * farClip / (farClip - nearClip)) / farClip = 1
    rw [key farClip hf]
    rw [mul_comm farClip (farClip - nearClip)]
    exact div_self (mul_pos hd hf).ne'

/-- Witness for C11 over the rationals with `tanf` the constant 1: `near = 1`, `far = 3`,
`aspect = 2`, the point `(5, 7, 2)`. -/
theorem perspective_depth_range_witness :
    (0 : ℚ) < 1 ∧ (1 : ℚ) < 3 ∧ (1 : ℚ) ≤ 2 ∧ (2 : ℚ) ≤ 3 ∧
    ∃ u : Vector3 ℚ,
      Transform (MakePerspectiveFovMatrix (fun _ => 1) (1 : ℚ) 2 1 3) ⟨5, 7, 2⟩ = some u ∧
        0 ≤ u.z ∧ u.z ≤ 1 :=
  ⟨by decide, by decide, by decide, by decide,
    (perspective_depth_range (fun _ => (1 : ℚ)) 1 2 1 3 5 7 2 (by decide) (by decide)
      (by decide) (by decide) (by decide) (by decide)).1⟩

/-- C12, with float arithmetic read as exact arithmetic (the exact reading of the scalar
type): for `right ≠ left`, `top ≠ bottom` and `far ≠ near`,
`O = MakeOrthographicMatrix(left, top, right, bottom, near, far)` maps the view box to NDC:
`Transform(O, (left, top, near)) = (−1, 1, 0)` and
`Transform(O, (right, bottom, far)) = (1, −1, 1)`, and `Transform` never fails its assertion
on `O`. -/
theorem orthographic_box_to_ndc (left top right bottom nearClip farClip : F)
    (hx : right ≠ left) (hy : top ≠ bottom) (hz : farClip ≠ nearClip) :
    Transform (MakeOrthographicMatrix left top right bottom nearClip farClip)
        ⟨left, top, nearClip⟩ = some ⟨-1, 1, 0⟩ ∧
    Transform (MakeOrthographicMatrix left top right bottom nearClip farClip)
        ⟨right, bottom, farClip⟩ = some ⟨1, -1, 1⟩ ∧
    ∀ v : Vector3 F,
      Transform (MakeOrthographicMatrix left top right bottom nearClip farClip) v ≠ none := by
  have hx1 : right - left ≠ 0 := sub_ne_zero.mpr hx
  have hx2 : left - right ≠ 0 := sub_ne_zero.mpr (Ne.symm hx)
  have hy1 : top - bottom ≠ 0 := sub_ne_zero.mpr hy
  have hy2 : bottom - top ≠ 0 := sub_ne_zero.mpr (Ne.symm hy)
  have hz1 : farClip - nearClip ≠ 0 := sub_ne_zero.mpr hz
  have hz2 : nearClip - farClip ≠ 0 := sub_ne_zero.mpr (Ne.symm hz)
  refine ⟨?_, ?_, ?_⟩
  · simp [Transform, MakeOrthographicMatrix, Matrix.vecHead, Matrix.vecTail]
    refine ⟨?_, ?_, ?_⟩
    · field_simp
      ring
    · field_simp
      ring
    · field_simp
      ring
  · simp [Transform, MakeOrthographicMatrix, Matrix.vecHead, Matrix.vecTail]
    refine ⟨?_, ?_, ?_⟩
    · field_simp
      ring
    · field_simp
      ring
    · field_simp
      ring
  · intro v
    simp [Transform, MakeOrthographicMatrix, Matrix.vecHead, Matrix.vecTail]

/-- Witness for C12 over the rationals: the box `left = 0, top = 2, right = 4, bottom = 0,
near = 1, far = 3`. -/
theorem orthographic_box_to_ndc_witness :
    (4 : ℚ) ≠ 0 ∧ (2 : ℚ) ≠ 0 ∧ (3 : ℚ) ≠ 1 ∧
    Transform (MakeOrthographicMatrix (0 : ℚ) 2 4 0 1 3) ⟨0, 2, 1⟩ = some ⟨-1, 1, 0⟩ ∧
    Transform (MakeOrthographicMatrix (0 : ℚ) 2 4 0 1 3) ⟨4, 0, 3⟩ = some ⟨1, -1, 1⟩ :=
  have h := orthographic_box_to_ndc (0 : ℚ) 2 4 0 1 3 (by decide) (by decide) (by decide)
  ⟨by decide, by decide, by decide, h.1, h.2.1⟩

/-- C13, with float arithmetic read as exact arithmetic (the exact reading of the scalar
type): for every `left, top, width, height, minDepth, maxDepth`,
`V = MakeViewportMatrix(left, top, width, height, minDepth, maxDepth)` maps NDC to screen space
with the Y axis flipped: `Transform(V, (−1, 1, 0)) = (left, top, minDepth)` and
`Transform(V, (1, −1, 1)) = (left + width, top + height, maxDepth)`. -/
theorem viewport_ndc_to_screen (left top width height minDepth maxDepth : F) :
    Transform (MakeViewportMatrix left top width height minDepth maxDepth) ⟨-1, 1, 0⟩
      = some ⟨left, top, minDepth⟩ ∧
    Transform (MakeViewportMatrix left top width height minDepth maxDepth) ⟨1, -1, 1⟩
      = some ⟨left + width, top + height, maxDepth⟩ := by
  constructor
  · simp [Transform, MakeViewportMatrix, Matrix.vecHead, Matrix.vecTail]
    ring
  · simp [Transform, MakeViewportMatrix, Matrix.vecHead, Matrix.vecTail]
    refine ⟨?_, ?_⟩ <;> ring

/-- C14, with float arithmetic read as exact arithmetic (the exact reading of the scalar
type): for every unit-length axis and every angle, `R = MakeRotateAxisAngle(axis, angle)` is
a rotation about that axis: `Multiply(R, Transpose(R)) = MakeIdentity()` and
`Transform(R, axis) = axis`, `cosf` and `sinf` being the real cosine and sine. -/
theorem axis_angle_rotation (axis : Vector3 ℝ) (angle : ℝ)
    (h : Length Real.sqrt axis = 1) :
    Matrix4x4.Multiply (MakeRotateAxisAngle Real.cos Real.sin axis angle)
      (Transpose (MakeRotateAxisAngle Real.cos Real.sin axis angle)) = MakeIdentity ∧
    Transform (MakeRotateAxisAngle Real.cos Real.sin axis angle) axis = some axis := by
  have hn := Dot_self_of_Length_one axis h
  simp only [Dot] at hn
  have hs : Real.sin angle ^ 2 + Real.cos angle ^ 2 = 1 := Real.sin_sq_add_cos_sq angle
  constructor
  · ext i j
    fin_cases i <;> fin_cases j <;>
      simp only [Matrix4x4.Multiply, Transpose, MakeRotateAxisAngle, MakeIdentity,
        Matrix.cons_val_zero, Matrix.cons_val_one, Matrix.head_cons, Matrix.cons_val_two,
        Matrix.tail_cons, Matrix.cons_val_three, Fin.zero_eta, Fin.mk_one, Fin.reduceFinMk,
        Fin.isValue, Fin.reduceEq, if_true, if_false] <;>
      first
      | ring1
      | linear_combination
          (axis.x ^ 2 * (1 - Real.cos angle) ^ 2 + Real.sin angle ^ 2) * hn
            + (1 - axis.x ^ 2) * hs
      | linear_combination
          (axis.y ^ 2 * (1 - Real.cos angle) ^ 2 + Real.sin angle ^ 2) * hn
            + (1 - axis.y ^ 2) * hs
      | linear_combination
          (axis.z ^ 2 * (1 - Real.cos angle) ^ 2 + Real.sin angle ^ 2) * hn
            + (1 - axis.z ^ 2) * hs
      | linear_combination
          (axis.x * axis.y * (1 - Real.cos angle) ^ 2) * hn - (axis.x * axis.y) * hs
      | linear_combination
          (axis.x * axis.z * (1 - Real.cos angle) ^ 2) * hn - (axis.x * axis.z) * hs
      | linear_combination
          (axis.y * axis.z * (1 - Real.cos angle) ^ 2) * hn - (axis.y * axis.z) * hs
  · have hT : Transform (MakeRotateAxisAngle Real.cos Real.sin axis angle) axis
        = some ⟨(axis.x * axis.x * (1 - Real.cos angle) + Real.cos angle) * axis.x
            + (axis.x * axis.y * (1 - Real.cos angle) - axis.z * Real.sin angle) * axis.y
            + (axis.x * axis.z * (1 - Real.cos angle) + axis.y * Real.sin angle) * axis.z,
          (axis.x * axis.y * (1 - Real.cos angle) + axis.z * Real.sin angle) * axis.x
            + (axis.y * axis.y * (1 - Real.cos angle) + Real.cos angle) * axis.y
            + (axis.y * axis.z * (1 - Real.cos angle) - axis.x * Real.sin angle) * axis.z,
          (axis.x * axis.z * (1 - Real.cos angle) - axis.y * Real.sin angle) * axis.x
            + (axis.y * axis.z * (1 - Real.cos angle) + axis.x * Real.sin angle) * axis.y
            + (axis.z * axis.z * (1 - Real.cos angle) + Real.cos angle) * axis.z⟩ := by
      simp [Transform, MakeRotateAxisAngle, Matrix.vecHead, Matrix.vecTail]
    rw [hT]
    congr 1
    ext
    · show _ = axis.x
      linear_combination (axis.x * (1 - Real.cos angle)) * hn
    · show _ = axis.y
      linear_combination (axis.y * (1 - Real.cos angle)) * hn
    · show _ = axis.z
      linear_combination (axis.z * (1 - Real.cos angle)) * hn

/-- Witness for C14 with the axis `(0, 0, 1)` and the angle 1. -/
theorem axis_angle_rotation_witness :
    Length Real.sqrt (⟨0, 0, 1⟩ : Vector3 ℝ) = 1 ∧
    Matrix4x4.Multiply (MakeRotateAxisAngle Real.cos Real.sin (⟨0, 0, 1⟩ : Vector3 ℝ) 1)
      (Transpose (MakeRotateAxisAngle Real.cos Real.sin (⟨0, 0, 1⟩ : Vector3 ℝ) 1))
      = MakeIdentity ∧
    Transform (MakeRotateAxisAngle Real.cos Real.sin (⟨0, 0, 1⟩ : Vector3 ℝ) 1) ⟨0, 0, 1⟩
      = some ⟨0, 0, 1⟩ :=
  have h : Length Real.sqrt (⟨0, 0, 1⟩ : Vector3 ℝ) = 1 := by simp [Length, Dot]
  ⟨h, axis_angle_rotation ⟨0, 0, 1⟩ 1 h⟩

/-- C15, with float arithmetic read as exact arithmetic (the exact reading of the scalar
type): for every input vector and every unit-length normal,
`Reflect(input, normal) = input − 2·Dot(input, normal)·normal` mirrors the input across the
plane of the normal: `Dot(Reflect(input, normal), normal) = −Dot(input, normal)` and
`Length(Reflect(input, normal)) = Length(input)`; `Reflect({1,-1,0}, {0,1,0}) = {1,1,0}`. -/
theorem reflect_mirror (input normal : Vector3 ℝ) (h : Length Real.sqrt normal = 1) :
    Reflect input normal =
      ⟨input.x - 2 * Dot input normal * normal.x, input.y - 2 * Dot input normal * normal.y,
        input.z - 2 * Dot input normal * normal.z⟩ ∧
    Dot (Reflect input normal) normal = -Dot input normal ∧
    Length Real.sqrt (Reflect input normal) = Length Real.sqrt input ∧
    Reflect (⟨1, -1, 0⟩ : Vector3 ℝ) ⟨0, 1, 0⟩ = ⟨1, 1, 0⟩ := by
  have hn := Dot_self_of_Length_one normal h
  simp only [Dot] at hn
  refine ⟨?_, ?_, ?_, ?_⟩
  · simp only [Reflect, Vector3.Subtract, Vector3.Multiply]
    ext <;> simp only [] <;> ring
  · simp only [Reflect, Vector3.Subtract, Vector3.Multiply, Dot]
    linear_combination
      (-2 * (input.x * normal.x + input.y * normal.y + input.z * normal.z)) * hn
  · unfold Length
    congr 1
    simp only [Reflect, Vector3.Subtract, Vector3.Multiply, Dot]
    linear_combination
      (4 * (input.x * normal.x + input.y * normal.y + input.z * normal.z) ^ 2) * hn
  · simp only [Reflect, Vector3.Subtract, Vector3.Multiply, Dot]
    ext <;> norm_num

/-- Witness for C15 with the unit normal `(0, 1, 0)` and the input `(3, -4, 2)`. -/
theorem reflect_mirror_witness :
    Length Real.sqrt (⟨0, 1, 0⟩ : Vector3 ℝ) = 1 ∧
    Dot (Reflect (⟨3, -4, 2⟩ : Vector3 ℝ) ⟨0, 1, 0⟩) ⟨0, 1, 0⟩ = -Dot ⟨3, -4, 2⟩ ⟨0, 1, 0⟩ ∧
    Length Real.sqrt (Reflect (⟨3, -4, 2⟩ : Vector3 ℝ) ⟨0, 1, 0⟩)
      = Length Real.sqrt (⟨3, -4, 2⟩ : Vector3 ℝ) :=
  have h : Length Real.sqrt (⟨0, 1, 0⟩ : Vector3 ℝ) = 1 := by simp [Length, Dot]
  ⟨h, (reflect_mirror ⟨3, -4, 2⟩ ⟨0, 1, 0⟩ h).2.1, (reflect_mirror ⟨3, -4, 2⟩ ⟨0, 1, 0⟩ h).2.2.1⟩

/-- C16, with float arithmetic read as exact arithmetic (the exact reading of the scalar
type): for every `v1` and every `v2` with `Length(v2) ≠ 0`, `Project(v1, v2)` is the
orthogonal projection of `v1` onto `v2`: it equals `(Dot(v1, v2) / Dot(v2, v2))·v2`, so it is a
scalar multiple of `v2`, and the remainder `v1 − Project(v1, v2)` has `Dot` with `v2` equal
to 0. -/
theorem project_orthogonal (v1 v2 : Vector3 ℝ) (h : Length Real.sqrt v2 ≠ 0) :
    Project Real.sqrt v1 v2 = Vector3.Multiply (Dot v1 v2 / Dot v2 v2) v2 ∧
    (∃ k : ℝ, Project Real.sqrt v1 v2 = Vector3.Multiply k v2) ∧
    Dot (Vector3.Subtract v1 (Project Real.sqrt v1 v2)) v2 = 0 := by
  have h0 : (0 : ℝ) ≤ Dot v2 v2 := Dot_self_nonneg v2
  have hsq : Length Real.sqrt v2 ^ 2 = Dot v2 v2 := by
    unfold Length
    exact Real.sq_sqrt h0
  have hD : Dot v2 v2 ≠ 0 := by
    intro e
    apply h
    unfold Length
    rw [e, Real.sqrt_zero]
  have hP : Project Real.sqrt v1 v2 = Vector3.Multiply (Dot v1 v2 / Dot v2 v2) v2 := by
    simp only [Project, if_pos h, hsq]
    rfl
  refine ⟨hP, ⟨_, hP⟩, ?_⟩
  rw [hP]
  have e : Dot (Vector3.Subtract v1 (Vector3.Multiply (Dot v1 v2 / Dot v2 v2) v2)) v2
      = Dot v1 v2 - Dot v1 v2 / Dot v2 v2 * Dot v2 v2 := by
    simp only [Dot, Vector3.Subtract, Vector3.Multiply]
    ring
  rw [e, div_mul_cancel₀ _ hD, sub_self]

/-- Witness for C16 at `v1 = (1, 2, 3)`, `v2 = (0, 2, 0)`. -/
theorem project_orthogonal_witness :
    Length Real.sqrt (⟨0, 2, 0⟩ : Vector3 ℝ) ≠ 0 ∧
    Dot (Vector3.Subtract (⟨1, 2, 3⟩ : Vector3 ℝ)
      (Project Real.sqrt ⟨1, 2, 3⟩ ⟨0, 2, 0⟩)) ⟨0, 2, 0⟩ = 0 :=
  have h : Length Real.sqrt (⟨0, 2, 0⟩ : Vector3 ℝ) ≠ 0 := by
    simp [Length, Dot]
  ⟨h, (project_orthogonal ⟨1, 2, 3⟩ ⟨0, 2, 0⟩ h).2.2⟩

/-- C17: for every vector `v`, `Perpendicular(v)` is orthogonal to `v`
(`Dot(v, Perpendicular(v)) = 0`): it is `(−y, x, 0)` unless `x = y = 0`, in which case it is
`(0, −z, y)`; and for every non-zero `v` the returned vector is non-zero. -/
theorem perpendicular_orthogonal (v : Vector3 F) :
    Dot v (Perpendicular v) = 0 ∧
    (¬ (v.x = 0 ∧ v.y = 0) → Perpendicular v = ⟨-v.y, v.x, 0⟩) ∧
    (v.x = 0 ∧ v.y = 0 → Perpendicular v = ⟨0, -v.z, v.y⟩) ∧
    (v ≠ ⟨0, 0, 0⟩ → Perpendicular v ≠ ⟨0, 0, 0⟩) := by
  by_cases hxy : v.x ≠ 0 ∨ v.y ≠ 0
  · have hP : Perpendicular v = ⟨-v.y, v.x, 0⟩ := by simp only [Perpendicular, if_pos hxy]
    refine ⟨?_, fun _ => hP, ?_, ?_⟩
    · rw [hP]
      simp only [Dot]
      ring
    · rintro ⟨hx, hy⟩
      rcases hxy with h | h
      · exact absurd hx h
      · exact absurd hy h
    · intro _ e
      rw [hP] at e
      have ex := congrArg Vector3.x e
      have ey := congrArg Vector3.y e
      simp only [neg_eq_zero] at ex ey
      rcases hxy with h | h
      · exact h ey
      · exact h ex
  · have hP : Perpendicular v = ⟨0, -v.z, v.y⟩ := by simp only [Perpendicular, if_neg hxy]
    have hx : v.x = 0 := by
      by_contra h
      exact hxy (Or.inl h)
    have hy : v.y = 0 := by
      by_contra h
      exact hxy (Or.inr h)
    refine ⟨?_, ?_, fun _ => hP, ?_⟩
    · rw [hP]
      simp only [Dot, hx, hy]
      ring
    · intro h
      exact absurd ⟨hx, hy⟩ h
    · intro hv e
      rw [hP] at e
      have ey := congrArg Vector3.y e
      simp only [neg_eq_zero] at ey
      apply hv
      ext
      · exact hx
      · exact hy
      · exact ey

/-- Witness for C17 over the rationals at `v = (0, 0, 1)` (the second branch) and at
`v = (2, 3, 5)` (the first branch). -/
theorem perpendicular_orthogonal_witness :
    ((⟨0, 0, 1⟩ : Vector3 ℚ) ≠ ⟨0, 0, 0⟩ ∧ Perpendicular (⟨0, 0, 1⟩ : Vector3 ℚ) ≠ ⟨0, 0, 0⟩) ∧
    Perpendicular (⟨0, 0, 1⟩ : Vector3 ℚ) = ⟨0, -1, 0⟩ ∧
    Perpendicular (⟨2, 3, 5⟩ : Vector3 ℚ) = ⟨-3, 2, 0⟩ :=
  ⟨⟨by decide, (perpendicular_orthogonal (⟨0, 0, 1⟩ : Vector3 ℚ)).2.2.2 (by decide)⟩,
    (perpendicular_orthogonal (⟨0, 0, 1⟩ : Vector3 ℚ)).2.2.1 ⟨rfl, rfl⟩,
    (perpendicular_orthogonal (⟨2, 3, 5⟩ : Vector3 ℚ)).2.1 (by decide)⟩

/-- C18: for all vectors `v1`, `v2`: `Dot(v1, v2) = Dot(v2, v1)`, and `Cross(v1, v2)` is the
component-wise negation of `Cross(v2, v1)`. -/
theorem dot_comm_cross_anticomm (v1 v2 : Vector3 F) :
    Dot v1 v2 = Dot v2 v1 ∧
    Cross v1 v2 = ⟨-(Cross v2 v1).x, -(Cross v2 v1).y, -(Cross v2 v1).z⟩ := by
  constructor
  · simp only [Dot]
    ring
  · simp only [Cross]
    ext <;> simp only [] <;> ring

/-- C19: `MakeRotateXMatrix(0)`, `MakeRotateYMatrix(0)` and `MakeRotateZMatrix(0)` each equal
`MakeIdentity()` element-wise, `cosf` and `sinf` being the real cosine and sine. -/
theorem rotate_zero_identity :
    MakeRotateXMatrix Real.cos Real.sin 0 = MakeIdentity ∧
    MakeRotateYMatrix Real.cos Real.sin 0 = MakeIdentity ∧
    MakeRotateZMatrix Real.cos Real.sin 0 = MakeIdentity := by
  refine ⟨?_, ?_, ?_⟩ <;> ext i j <;> fin_cases i <;> fin_cases j <;>
    simp [MakeRotateXMatrix, MakeRotateYMatrix, MakeRotateZMatrix, MakeIdentity,
      Matrix.vecHead, Matrix.vecTail]

/-- C20, with float arithmetic read as exact arithmetic (the exact reading of the scalar
type): for every `p0`, `p1`, `p2` and `t`, `Bezier(p0, p1, p2, t)`, built from nested
`Lerp` calls, equals `t²·p0 + 2t(1−t)·p1 + (1−t)²·p2`, so `Bezier(p0, p1, p2, 0) = p2` and
`Bezier(p0, p1, p2, 1) = p0`. -/
theorem bezier_quadratic (p0 p1 p2 : Vector3 F) (t : F) :
    Bezier p0 p1 p2 t = Lerp (Lerp p0 p1 t) (Lerp p1 p2 t) t ∧
    Bezier p0 p1 p2 t =
      ⟨t ^ 2 * p0.x + 2 * t * (1 - t) * p1.x + (1 - t) ^ 2 * p2.x,
       t ^ 2 * p0.y + 2 * t * (1 - t) * p1.y + (1 - t) ^ 2 * p2.y,
       t ^ 2 * p0.z + 2 * t * (1 - t) * p1.z + (1 - t) ^ 2 * p2.z⟩ ∧
    Bezier p0 p1 p2 0 = p2 ∧ Bezier p0 p1 p2 1 = p0 := by
  refine ⟨rfl, ?_, ?_, ?_⟩
  · simp only [Bezier, Lerp, Vector3.Add, Vector3.Multiply]
    ext <;> simp only [] <;> ring
  · ext <;> simp [Bezier, Lerp, Vector3.Add, Vector3.Multiply]
  · ext <;> simp [Bezier, Lerp, Vector3.Add, Vector3.Multiply]

/-! ## Composition of transforms and the axis-angle builder on the coordinate axes -/

/-- `Transform` passes its assertion exactly when `w` is non-zero, and then returns the
three components divided by `w`. -/
theorem Transform_eq_some (M : Matrix4x4 F) (v : Vector3 F)
    (hw : M.m 0 3 * v.x + M.m 1 3 * v.y + M.m 2 3 * v.z + M.m 3 3 ≠ 0) :
    Transform M v = some
      ⟨(M.m 0 0 * v.x + M.m 1 0 * v.y + M.m 2 0 * v.z + M.m 3 0)
          / (M.m 0 3 * v.x + M.m 1 3 * v.y + M.m 2 3 * v.z + M.m 3 3),
        (M.m 0 1 * v.x + M.m 1 1 * v.y + M.m 2 1 * v.z + M.m 3 1)
          / (M.m 0 3 * v.x + M.m 1 3 * v.y + M.m 2 3 * v.z + M.m 3 3),
        (M.m 0 2 * v.x + M.m 1 2 * v.y + M.m 2 2 * v.z + M.m 3 2)
          / (M.m 0 3 * v.x + M.m 1 3 * v.y + M.m 2 3 * v.z + M.m 3 3)⟩ := by
  simp only [Transform, if_pos hw]

theorem Transform_w_ne_zero (M : Matrix4x4 F) (v : Vector3 F) (h : Transform M v ≠ none) :
    M.m 0 3 * v.x + M.m 1 3 * v.y + M.m 2 3 * v.z + M.m 3 3 ≠ 0 := by
  intro hw
  apply h
  simp only [Transform, hw, ne_eq, not_true_eq_false, if_false]

/-- Row `(x, y, z, 1)` times `Multiply(A, B)`, column `j`, is the row `(x, y, z, 1)·A` times
column `j` of `B`. -/
theorem Multiply_row (A B : Matrix4x4 F) (v : Vector3 F) (j : Fin 4) :
    (Matrix4x4.Multiply A B).m 0 j * v.x + (Matrix4x4.Multiply A B).m 1 j * v.y
        + (Matrix4x4.Multiply A B).m 2 j * v.z + (Matrix4x4.Multiply A B).m 3 j
      = B.m 0 j * (A.m 0 0 * v.x + A.m 1 0 * v.y + A.m 2 0 * v.z + A.m 3 0)
        + B.m 1 j * (A.m 0 1 * v.x + A.m 1 1 * v.y + A.m 2 1 * v.z + A.m 3 1)
        + B.m 2 j * (A.m 0 2 * v.x + A.m 1 2 * v.y + A.m 2 2 * v.z + A.m 3 2)
        + B.m 3 j * (A.m 0 3 * v.x + A.m 1 3 * v.y + A.m 2 3 * v.z + A.m 3 3) := by
  simp only [Matrix4x4.Multiply]
  ring

/-- C21, with float arithmetic read as exact arithmetic (the exact reading of the scalar
type): `Transform` composes with matrix multiplication in row-vector order: for every `A`,
`B` and `v` such that neither `Transform(A, v)` nor `Transform(Multiply(A, B), v)` fails the
`w = 0` assertion, `Transform(B, Transform(A, v))` does not fail it either and
`Transform(Multiply(A, B), v) = Transform(B, Transform(A, v))`. -/
theorem transform_multiply (A B : Matrix4x4 F) (v : Vector3 F)
    (hA : Transform A v ≠ none) (hAB : Transform (Matrix4x4.Multiply A B) v ≠ none) :
    ∃ u r : Vector3 F, Transform A v = some u ∧ Transform B u = some r ∧
      Transform (Matrix4x4.Multiply A B) v = some r := by
  have hwA := Transform_w_ne_zero A v hA
  have hwAB := Transform_w_ne_zero (Matrix4x4.Multiply A B) v hAB
  have hTA := Transform_eq_some A v hwA
  have hTAB := Transform_eq_some (Matrix4x4.Multiply A B) v hwAB
  have r0 := Multiply_row A B v 0
  have r1 := Multiply_row A B v 1
  have r2 := Multiply_row A B v 2
  have r3 := Multiply_row A B v 3
  rw [r3] at hwAB
  rw [r0, r1, r2, r3] at hTAB
  generalize A.m 0 0 * v.x + A.m 1 0 * v.y + A.m 2 0 * v.z + A.m 3 0 = X at hTA hTAB hwAB
  generalize A.m 0 1 * v.x + A.m 1 1 * v.y + A.m 2 1 * v.z + A.m 3 1 = Y at hTA hTAB hwAB
  generalize A.m 0 2 * v.x + A.m 1 2 * v.y + A.m 2 2 * v.z + A.m 3 2 = Z at hTA hTAB hwAB
  generalize A.m 0 3 * v.x + A.m 1 3 * v.y + A.m 2 3 * v.z + A.m 3 3 = W at hTA hTAB hwAB hwA
  have col : ∀ j : Fin 4,
      B.m 0 j * (X / W) + B.m 1 j * (Y / W) + B.m 2 j * (Z / W) + B.m 3 j
        = (B.m 0 j * X + B.m 1 j * Y + B.m 2 j * Z + B.m 3 j * W) / W := by
    intro j
    field_simp
  have hwB : B.m 0 3 * (X / W) + B.m 1 3 * (Y / W) + B.m 2 3 * (Z / W) + B.m 3 3 ≠ 0 := by
    rw [col 3]
    exact div_ne_zero hwAB hwA
  have hTB := Transform_eq_some B ⟨X / W, Y / W, Z / W⟩ hwB
  simp only [col, div_div_div_cancel_right₀ hwA] at hTB
  exact ⟨_, _, hTA, hTB, hTAB⟩

/-- Witness for C21 over the rationals: `A` a translation by `(1, 2, 3)`, `B` a scale by
`(2, 2, 2)`, `v = (1, 1, 1)`. -/
theorem transform_multiply_witness :
    Transform (MakeTranslateMatrix (⟨1, 2, 3⟩ : Vector3 ℚ)) ⟨1, 1, 1⟩ ≠ none ∧
    Transform (Matrix4x4.Multiply (MakeTranslateMatrix (⟨1, 2, 3⟩ : Vector3 ℚ))
      (MakeScaleMatrix ⟨2, 2, 2⟩)) ⟨1, 1, 1⟩ ≠ none ∧
    ∃ u r : Vector3 ℚ,
      Transform (MakeTranslateMatrix (⟨1, 2, 3⟩ : Vector3 ℚ)) ⟨1, 1, 1⟩ = some u ∧
      Transform (MakeScaleMatrix ⟨2, 2, 2⟩) u = some r ∧
      Transform (Matrix4x4.Multiply (MakeTranslateMatrix (⟨1, 2, 3⟩ : Vector3 ℚ))
        (MakeScaleMatrix ⟨2, 2, 2⟩)) ⟨1, 1, 1⟩ = some r :=
  have h1 : Transform (MakeTranslateMatrix (⟨1, 2, 3⟩ : Vector3 ℚ)) ⟨1, 1, 1⟩ ≠ none := by
    simp [Transform, MakeTranslateMatrix, Matrix.vecHead, Matrix.vecTail]
  have h2 : Transform (Matrix4x4.Multiply (MakeTranslateMatrix (⟨1, 2, 3⟩ : Vector3 ℚ))
      (MakeScaleMatrix ⟨2, 2, 2⟩)) ⟨1, 1, 1⟩ ≠ none := by
    simp [Transform, Matrix4x4.Multiply, MakeTranslateMatrix, MakeScaleMatrix, Matrix.vecHead,
      Matrix.vecTail]
  ⟨h1, h2, transform_multiply _ _ _ h1 h2⟩

/-- C22, with float arithmetic read as exact arithmetic (the exact reading of the scalar
type): the axis-angle builder agrees with the three axis-aligned builders on the coordinate
axes: for every angle `a`, `MakeRotateAxisAngle({1,0,0}, a) = MakeRotateXMatrix(a)`,
`MakeRotateAxisAngle({0,1,0}, a) = MakeRotateYMatrix(a)` and
`MakeRotateAxisAngle({0,0,1}, a) = MakeRotateZMatrix(a)`, element-wise, whatever `cosf` and
`sinf` return. -/
theorem axis_angle_coordinate_axes (cosf sinf : F → F) (a : F) :
    MakeRotateAxisAngle cosf sinf ⟨1, 0, 0⟩ a = MakeRotateXMatrix cosf sinf a ∧
    MakeRotateAxisAngle cosf sinf ⟨0, 1, 0⟩ a = MakeRotateYMatrix cosf sinf a ∧
    MakeRotateAxisAngle cosf sinf ⟨0, 0, 1⟩ a = MakeRotateZMatrix cosf sinf a := by
  refine ⟨?_, ?_, ?_⟩ <;> ext i j <;> fin_cases i <;> fin_cases j <;>
    simp [MakeRotateAxisAngle, MakeRotateXMatrix, MakeRotateYMatrix, MakeRotateZMatrix,
      Matrix.vecHead, Matrix.vecTail]

/-! ## The claims in binary32 arithmetic

Each theorem evaluates the source functions in binary32 at one input inside the hypotheses of
a claim and records the result, which differs from what the claim states. -/

set_option maxRecDepth 100000

/-- C2 in binary32: `M = diag(2^-60, 2^-60, 2^-60, 1)` is non-singular
(`Multiply(M, diag(2^60, 2^60, 2^60, 1)) = MakeIdentity()`), but every product in `det`
underflows to zero, so `Inverse(M)` is the all-zero matrix. -/
theorem inverse_sentinel_binary32 :
    (∃ N : Matrix4x4 F32,
      Matrix4x4.Multiply
        (MakeScaleMatrix ⟨F32.ofBits 0x21800000, F32.ofBits 0x21800000, F32.ofBits 0x21800000⟩)
        N = MakeIdentity) ∧
    Inverse (MakeScaleMatrix
      (⟨F32.ofBits 0x21800000, F32.ofBits 0x21800000, F32.ofBits 0x21800000⟩ : Vector3 F32))
      = ⟨fun _ _ => 0⟩ := by
  refine ⟨⟨MakeScaleMatrix
    ⟨F32.ofBits 0x5d800000, F32.ofBits 0x5d800000, F32.ofBits 0x5d800000⟩, ?_⟩, ?_⟩
  · ext i j
    fin_cases i <;> fin_cases j <;> decide
  · ext i j
    fin_cases i <;> fin_cases j <;> decide

/-- C6 in binary32: `lineStart = (0,0,0)`, `lineEnd = (2^-80,0,0)`, `p = (0,1,0)`.  The squared
length of the direction underflows to zero, `t` is `0/0 = NaN`, both comparisons fail and the
result is `(NaN, NaN, NaN)`; its distance to `p` is NaN, which is not `≤` the distance 1 from
`p` to the segment point of parameter `s = 0`. -/
theorem closestPoint_binary32 :
    (⟨0, 0, 0⟩ : Vector3 F32) ≠ ⟨F32.ofBits 0x17800000, 0, 0⟩ ∧
    ClosestPoint (⟨0, 0, 0⟩ : Vector3 F32) ⟨F32.ofBits 0x17800000, 0, 0⟩ ⟨0, 1, 0⟩
      = ⟨F32.nan, F32.nan, F32.nan⟩ ∧
    (0 : F32) ≤ 0 ∧ (0 : F32) ≤ 1 ∧
    ¬ (Length F32.sqrt (Vector3.Subtract (⟨0, 1, 0⟩ : Vector3 F32)
          (ClosestPoint ⟨0, 0, 0⟩ ⟨F32.ofBits 0x17800000, 0, 0⟩ ⟨0, 1, 0⟩))
        ≤ Length F32.sqrt (Vector3.Subtract (⟨0, 1, 0⟩ : Vector3 F32)
            (Vector3.Add ⟨0, 0, 0⟩ (Vector3.Multiply 0
              (Vector3.Subtract ⟨F32.ofBits 0x17800000, 0, 0⟩ ⟨0, 0, 0⟩))))) := by
  decide

/-- C9 in binary32: `s = (0.1f, 0.1f, 0.1f)`, `r = (0.1f, 0.2f, 0.3f)`, `t = (1, 1, 1)`,
`v = (3, 7, 9)`.  Both `Transform` calls pass the assertion, but the `z` through the affine
matrix is `1.8865428` (`0x3ff17a3c`) while rotate-then-add gives `1.88654292`
(`0x3ff17a3d`). -/
theorem affine_binary32 :
    Transform (MakeRotateMatrix F32.cosf F32.sinf
        (F32.ofBits 0x3dcccccd) (F32.ofBits 0x3e4ccccd) (F32.ofBits 0x3e99999a))
      ⟨F32.ofBits 0x3dcccccd * 3, F32.ofBits 0x3dcccccd * 7, F32.ofBits 0x3dcccccd * 9⟩
      = some ⟨F32.ofBits 0x3e91d619, F32.ofBits 0x3f391ebb, F32.ofBits 0x3f62f47a⟩ ∧
    Transform (MakeAffineMatrix F32.cosf F32.sinf
        ⟨F32.ofBits 0x3dcccccd, F32.ofBits 0x3dcccccd, F32.ofBits 0x3dcccccd⟩
        ⟨F32.ofBits 0x3dcccccd, F32.ofBits 0x3e4ccccd, F32.ofBits 0x3e99999a⟩ ⟨1, 1, 1⟩)
      ⟨3, 7, 9⟩
      = some ⟨F32.ofBits 0x3fa47586, F32.ofBits 0x3fdc8f5e, F32.ofBits 0x3ff17a3c⟩ ∧
    (⟨F32.ofBits 0x3fa47586, F32.ofBits 0x3fdc8f5e, F32.ofBits 0x3ff17a3c⟩ : Vector3 F32)
      ≠ Vector3.Add ⟨F32.ofBits 0x3e91d619, F32.ofBits 0x3f391ebb, F32.ofBits 0x3f62f47a⟩
          ⟨1, 1, 1⟩ := by
  decide!

/-- C11 in binary32: `near = 1`, `far = 12`, `fovY = 1`, `aspect = 1` and the point
`(0, 0, 12)` with `z = far`: the depth after the divide is `1.00000012` (`0x3f800001`),
above 1. -/
theorem perspective_binary32 :
    (0 : F32) < 1 ∧ (1 : F32) < 12 ∧ F32.tanf ((1 : F32) / 2) ≠ 0 ∧ (1 : F32) ≠ 0 ∧
    (1 : F32) ≤ 12 ∧ (12 : F32) ≤ 12 ∧
    Transform (MakePerspectiveFovMatrix F32.tanf (1 : F32) 1 1 12) ⟨0, 0, 12⟩
      = some ⟨0, 0, F32.ofBits 0x3f800001⟩ ∧
    ¬ (F32.ofBits 0x3f800001 ≤ 1) := by
  decide

/-- C12 in binary32: `left = 1`, `top = 1`, `right = 4`, `bottom = 0`, `near = 0`, `far = 1`:
the corner `(left, top, near)` is mapped to `x = -0.99999994` (`0xbf7fffff`), not `-1`. -/
theorem orthographic_binary32 :
    (4 : F32) ≠ 1 ∧ (1 : F32) ≠ 0 ∧
    Transform (MakeOrthographicMatrix (1 : F32) 1 4 0 0 1) ⟨1, 1, 0⟩
      = some ⟨F32.ofBits 0xbf7fffff, 1, 0⟩ ∧
    Transform (MakeOrthographicMatrix (1 : F32) 1 4 0 0 1) ⟨1, 1, 0⟩ ≠ some ⟨-1, 1, 0⟩ := by
  decide

/-- C13 in binary32: `left = 2^-24`, `top = 0`, `width = height = 2`, depth range `[0, 1]`:
`left + width/2` rounds to 1, so `(-1, 1, 0)` is mapped to `x = 0`, not to `left`. -/
theorem viewport_binary32 :
    Transform (MakeViewportMatrix (F32.ofBits 0x33800000) 0 2 2 0 1) ⟨-1, 1, 0⟩
      = some ⟨0, 0, 0⟩ ∧
    Transform (MakeViewportMatrix (F32.ofBits 0x33800000) 0 2 2 0 1) ⟨-1, 1, 0⟩
      ≠ some ⟨F32.ofBits 0x33800000, 0, 0⟩ := by
  decide

/-- C14 in binary32: the unit axis `(0, 0, 1)` and the angle `1.0f`, with
`cosf(1.0f) = 0.540302277` and `sinf(1.0f) = 0.841470957`: the entry `[0][0]` of
`Multiply(R, Transpose(R))` is `0.99999994` (`0x3f7fffff`), not 1. -/
theorem axis_angle_binary32 :
    Length F32.sqrt (⟨0, 0, 1⟩ : Vector3 F32) = 1 ∧
    (Matrix4x4.Multiply (MakeRotateAxisAngle F32.cosf F32.sinf (⟨0, 0, 1⟩ : Vector3 F32) 1)
      (Transpose (MakeRotateAxisAngle F32.cosf F32.sinf (⟨0, 0, 1⟩ : Vector3 F32) 1))).m 0 0
      = F32.ofBits 0x3f7fffff ∧
    Matrix4x4.Multiply (MakeRotateAxisAngle F32.cosf F32.sinf (⟨0, 0, 1⟩ : Vector3 F32) 1)
      (Transpose (MakeRotateAxisAngle F32.cosf F32.sinf (⟨0, 0, 1⟩ : Vector3 F32) 1))
      ≠ MakeIdentity := by
  refine ⟨by decide!, by decide!, ?_⟩
  intro h
  have h00 := congrArg (fun A : Matrix4x4 F32 => A.m 0 0) h
  revert h00
  decide!

/-- C15 in binary32: the normal `(0.6f, 0.8f, 0)` has `Length` exactly 1; for the input
`(1, 2, 3)`, `Dot(Reflect(input, normal), normal)` is `-2.20000029` (`0xc00cccce`) while
`-Dot(input, normal)` is `-2.20000005` (`0xc00ccccd`). -/
theorem reflect_binary32 :
    Length F32.sqrt (⟨F32.ofBits 0x3f19999a, F32.ofBits 0x3f4ccccd, 0⟩ : Vector3 F32) = 1 ∧
    Dot (Reflect (⟨1, 2, 3⟩ : Vector3 F32) ⟨F32.ofBits 0x3f19999a, F32.ofBits 0x3f4ccccd, 0⟩)
      ⟨F32.ofBits 0x3f19999a, F32.ofBits 0x3f4ccccd, 0⟩ = F32.ofBits 0xc00cccce ∧
    -Dot (⟨1, 2, 3⟩ : Vector3 F32) ⟨F32.ofBits 0x3f19999a, F32.ofBits 0x3f4ccccd, 0⟩
      = F32.ofBits 0xc00ccccd ∧
    Dot (Reflect (⟨1, 2, 3⟩ : Vector3 F32) ⟨F32.ofBits 0x3f19999a, F32.ofBits 0x3f4ccccd, 0⟩)
      ⟨F32.ofBits 0x3f19999a, F32.ofBits 0x3f4ccccd, 0⟩
      ≠ -Dot (⟨1, 2, 3⟩ : Vector3 F32) ⟨F32.ofBits 0x3f19999a, F32.ofBits 0x3f4ccccd, 0⟩ := by
  decide!

/-- C16 in binary32: `v1 = (1, 0, 0)`, `v2 = (1, 1, 0)`.  `Length(v2)` is `sqrtf(2)` and its
square rounds to `1.99999988`, so `Project(v1, v2)` is `(0.50000006, 0.50000006, 0)`
(`0x3f000001`), not `(Dot(v1, v2) / Dot(v2, v2))·v2 = (0.5, 0.5, 0)`, and the remainder has
`Dot` with `v2` equal to `-2^-23`. -/
theorem project_binary32 :
    Length F32.sqrt (⟨1, 1, 0⟩ : Vector3 F32) ≠ 0 ∧
    Project F32.sqrt (⟨1, 0, 0⟩ : Vector3 F32) ⟨1, 1, 0⟩
      = ⟨F32.ofBits 0x3f000001, F32.ofBits 0x3f000001, 0⟩ ∧
    Project F32.sqrt (⟨1, 0, 0⟩ : Vector3 F32) ⟨1, 1, 0⟩
      ≠ Vector3.Multiply (Dot (⟨1, 0, 0⟩ : Vector3 F32) ⟨1, 1, 0⟩
          / Dot (⟨1, 1, 0⟩ : Vector3 F32) ⟨1, 1, 0⟩) ⟨1, 1, 0⟩ ∧
    Dot (Vector3.Subtract (⟨1, 0, 0⟩ : Vector3 F32)
      (Project F32.sqrt (⟨1, 0, 0⟩ : Vector3 F32) ⟨1, 1, 0⟩)) ⟨1, 1, 0⟩
      = F32.ofBits 0xb4000000 ∧
    Dot (Vector3.Subtract (⟨1, 0, 0⟩ : Vector3 F32)
      (Project F32.sqrt (⟨1, 0, 0⟩ : Vector3 F32) ⟨1, 1, 0⟩)) ⟨1, 1, 0⟩ ≠ 0 := by
  decide!

/-- C20 in binary32: `p0 = (1, 2, 3)`, `p1 = (4, -1, 0.5)`, `p2 = (7, 3, -2)`, `t = 0.3f`.  The
nested `Lerp` gives `(5.19999981, 1.23000002, -0.5)`; the expanded quadratic gives
`1.2299999` (`0x3f9d70a3`) and `-0.49999994` (`0xbefffffe`) in `y` and `z`. -/
theorem bezier_binary32 :
    Bezier (⟨1, 2, 3⟩ : Vector3 F32) ⟨4, -1, F32.ofBits 0x3f000000⟩ ⟨7, 3, -2⟩
        (F32.ofBits 0x3e99999a)
      = ⟨F32.ofBits 0x40a66666, F32.ofBits 0x3f9d70a4, F32.ofBits 0xbf000000⟩ ∧
    (⟨F32.ofBits 0x3e99999a ^ 2 * 1 + 2 * F32.ofBits 0x3e99999a * (1 - F32.ofBits 0x3e99999a) * 4
          + (1 - F32.ofBits 0x3e99999a) ^ 2 * 7,
        F32.ofBits 0x3e99999a ^ 2 * 2 + 2 * F32.ofBits 0x3e99999a * (1 - F32.ofBits 0x3e99999a) * -1
          + (1 - F32.ofBits 0x3e99999a) ^ 2 * 3,
        F32.ofBits 0x3e99999a ^ 2 * 3
          + 2 * F32.ofBits 0x3e99999a * (1 - F32.ofBits 0x3e99999a) * F32.ofBits 0x3f000000
          + (1 - F32.ofBits 0x3e99999a) ^ 2 * -2⟩ : Vector3 F32)
      = ⟨F32.ofBits 0x40a66666, F32.ofBits 0x3f9d70a3, F32.ofBits 0xbefffffe⟩ ∧
    (⟨F32.ofBits 0x40a66666, F32.ofBits 0x3f9d70a4, F32.ofBits 0xbf000000⟩ : Vector3 F32)
      ≠ ⟨F32.ofBits 0x40a66666, F32.ofBits 0x3f9d70a3, F32.ofBits 0xbefffffe⟩ := by
  decide!

/-- C21 in binary32: `A = MakeTranslateMatrix({2^-24, 0, 0})`, `B` with rows `(1,0,0,1)`,
`(0,1,0,0)`, `(0,0,1,0)`, `(0,0,0,-1)` and `v = (1, 0, 0)`.  `Transform(A, v)` is `(1, 0, 0)`
(`1 + 2^-24` rounds to 1) and `Transform(Multiply(A, B), v)` is `(2^24, 0, 0)`; both pass the
assertion, but `Transform(B, (1, 0, 0))` has `w = 1 - 1 = 0` and fails it. -/
theorem transform_multiply_binary32 :
    Transform (MakeTranslateMatrix (⟨F32.ofBits 0x33800000, 0, 0⟩ : Vector3 F32)) ⟨1, 0, 0⟩
      = some ⟨1, 0, 0⟩ ∧
    Transform (Matrix4x4.Multiply
        (MakeTranslateMatrix (⟨F32.ofBits 0x33800000, 0, 0⟩ : Vector3 F32))
        ⟨![![1, 0, 0, 1], ![0, 1, 0, 0], ![0, 0, 1, 0], ![0, 0, 0, -1]]⟩) ⟨1, 0, 0⟩
      = some ⟨F32.ofBits 0x4b800000, 0, 0⟩ ∧
    Transform (⟨![![1, 0, 0, 1], ![0, 1, 0, 0], ![0, 0, 1, 0], ![0, 0, 0, -1]]⟩ : Matrix4x4 F32)
      ⟨1, 0, 0⟩ = none := by
  decide!

/-- C22 in binary32: the angle `1.57079637f` (`0x3fc90fdb`), where
`cosf = -4.37113883e-08`: the entry `[0][0]` of `MakeRotateAxisAngle({1,0,0}, a)` is
`1·1·(1 − cosf a) + cosf a = 0.99999994` (`0x3f7fffff`), while `MakeRotateXMatrix(a)` stores
1. -/
theorem axis_angle_axes_binary32 :
    (MakeRotateAxisAngle F32.cosf F32.sinf (⟨1, 0, 0⟩ : Vector3 F32)
      (F32.ofBits 0x3fc90fdb)).m 0 0 = F32.ofBits 0x3f7fffff ∧
    (MakeRotateXMatrix F32.cosf F32.sinf (F32.ofBits 0x3fc90fdb)).m 0 0 = 1 ∧
    MakeRotateAxisAngle F32.cosf F32.sinf (⟨1, 0, 0⟩ : Vector3 F32) (F32.ofBits 0x3fc90fdb)
      ≠ MakeRotateXMatrix F32.cosf F32.sinf (F32.ofBits 0x3fc90fdb) := by
  refine ⟨by decide!, by decide!, ?_⟩
  intro h
  have h00 := congrArg (fun A : Matrix4x4 F32 => A.m 0 0) h
  revert h00
  decide!

end MT4
